import Mathlib

/-!
# golang-plugins: a hot-reload harness (src/main.go)

A shallow embedding of `main.go` and a verification of its specification.

The program polls the directory `<cwd>/plugins`, copies every `.go` file under a
random name into a scratch directory, builds it with `go build -buildmode=plugin`,
opens the result with `plugin.Open`, calls its `Run` function and removes the
compiled object again.

Modelling conventions.

* Go `string` is Lean `String`; `len` and slicing count characters.  The only
  slice in the program cuts the three ASCII characters `.go`, for which
  characters and bytes coincide.
* A Go `error` is its message (`err.Error()`); the nil error is `none`, or `ok`
  in a result of type `Res`; `fmt.Errorf` with `%s`/`%v`/`%T` verbs is string
  concatenation.
* Everything outside the process (working directory, directory listings, file
  contents, the random source, the `go` tool, the dynamic loader and the code
  of the loaded plugin) is an oracle collected in `Env`.  Every theorem is
  quantified over all of `Env`, so every combination of outcomes is covered.
* The files the process itself writes and removes are tracked concretely in
  `World.files`; `World.trace` is a ghost log of the calls the process issues.
* Plugin code runs inside the process: the init functions during `plugin.Open`
  and `Run` when `call` invokes it.  It may return, panic or end the process
  with `os.Exit` (type `Res`); `Run` may also rewrite the tracked files and
  re-seed the random source it shares with the program.  External code that
  never finishes is not modelled.
-/

namespace GoPlugins

/-! ## Library functions used by the program -/

/-- File contents, Go `[]byte`. -/
abbrev Bytes := List UInt8

/-- Go `os.IsPathSeparator` on Linux (the program only works on Linux). -/
def isPathSeparator (c : Char) : Bool := c == '/'

/-- The loop of Go `filepath.Ext`:
`for i := len(path)-1; i >= 0 && !os.IsPathSeparator(path[i]); i-- { if path[i] == '.' { return path[i:] } }; return ""`.
The first argument is `path[0..i]` reversed (so its head is `path[i]`), the
second is `path[i+1:]`. -/
def extScan : List Char → List Char → List Char
  | [], _ => []
  | c :: before, suffix =>
    if isPathSeparator c then []
    else if c = '.' then c :: suffix
    else extScan before (c :: suffix)

/-- Go `filepath.Ext`: the suffix beginning at the final dot in the final
element of `path`; empty if there is no dot. -/
def Ext (path : String) : String := ⟨extScan path.data.reverse []⟩

/-- The test `r == n || os.IsPathSeparator(path[r])` of `filepath.Clean`, on the
unread rest of the path. -/
def atSepOrEnd : List Char → Bool
  | [] => true
  | c :: _ => isPathSeparator c

/-- The backtracking loop of `filepath.Clean` for a `..` element, entered after
`out.w--` with the new `w`:
`for out.w > dotdot && !os.IsPathSeparator(out.index(out.w)) { out.w-- }`.
Returns the final `w`. -/
def backtrackW (out : List Char) (dotdot : Nat) : Nat → Nat
  | 0 => 0
  | w + 1 =>
    if w + 1 > dotdot ∧ ¬ isPathSeparator (out.getD (w + 1) '/') then backtrackW out dotdot w
    else w + 1

/-- The test `rooted && out.w != 1 || !rooted && out.w != 0` of `filepath.Clean`:
a separator has to be written before the next path element. -/
def needSep (rooted : Bool) (out : List Char) : Bool :=
  (rooted && out.length != 1) || (!rooted && out.length != 0)

/-- Start of a real path element in `filepath.Clean`: add a slash if needed and
copy the first character of the element. -/
def startElem (rooted : Bool) (out : List Char) (c : Char) : List Char :=
  (if needSep rooted out then out ++ ['/'] else out) ++ [c]

/-- The main loop `for r < n { switch { ... } }` of Go `filepath.Clean`.
Arguments: `rooted`; whether the inner copy loop of a real path element is
running; the unread input `path[r:]`; the output buffer `out[:w]`; `dotdot`.
Returns the final buffer and `dotdot`. -/
def cleanLoop (rooted : Bool) : Bool → List Char → List Char → Nat → List Char × Nat
  | _, [], out, dotdot => (out, dotdot)
  | true, c :: rest, out, dotdot =>
      -- for ; r < n && !os.IsPathSeparator(path[r]); r++ { out.append(path[r]) }
      if isPathSeparator c then cleanLoop rooted false rest out dotdot
      else cleanLoop rooted true rest (out ++ [c]) dotdot
  | false, c :: rest, out, dotdot =>
      -- empty path element
      if isPathSeparator c then cleanLoop rooted false rest out dotdot
      -- . element
      else if c = '.' ∧ atSepOrEnd rest then cleanLoop rooted false rest out dotdot
      else
        match rest with
        | c2 :: rest2 =>
          -- .. element: remove to last separator
          if c = '.' ∧ c2 = '.' ∧ atSepOrEnd rest2 then
            if out.length > dotdot then
              -- can backtrack
              cleanLoop rooted false rest2 (out.take (backtrackW out dotdot (out.length - 1))) dotdot
            else if ¬ rooted then
              -- cannot backtrack, but not rooted, so append .. element
              let out2 := (if out.length > 0 then out ++ ['/'] else out) ++ ['.', '.']
              cleanLoop rooted false rest2 out2 out2.length
            else cleanLoop rooted false rest2 out dotdot
          else
            -- real path element
            cleanLoop rooted true (c2 :: rest2) (startElem rooted out c) dotdot
        | [] => (startElem rooted out c, dotdot)

/-- Go `filepath.Clean` on Linux (no volume name), on the characters of the path. -/
def cleanChars : List Char → List Char
  | [] => ['.']
  | c :: rest =>
    let out :=
      if isPathSeparator c then (cleanLoop true false rest ['/'] 1).1
      else (cleanLoop false false (c :: rest) [] 0).1
    -- Turn empty string into "."
    if out.length = 0 then ['.'] else out

/-- Go `filepath.Clean`. -/
def Clean (path : String) : String := ⟨cleanChars path.data⟩

/-- Go `filepath.Join` of two elements: empty elements are ignored, the rest is
joined with the separator and cleaned. -/
def Join (a b : String) : String :=
  if a ≠ "" then Clean (a ++ "/" ++ b)
  else if b ≠ "" then Clean b
  else ""

/-- The part of `Join dir name` contributed by `dir` when `name` is a plain file
name: the cleaned directory followed by a separator where one is needed. -/
def joinBase (dir : String) : String :=
  match dir.data with
  | [] => ""
  | c :: rest =>
    let rooted := isPathSeparator c
    let out :=
      if rooted then (cleanLoop true false rest ['/'] 1).1
      else (cleanLoop false false (c :: rest) [] 0).1
    ⟨if needSep rooted out then out ++ ['/'] else out⟩

/-- Go slice expression `s[:hi]`; `none` is the run-time panic
"slice bounds out of range". -/
def sliceTo (s : String) (hi : Int) : Option String :=
  if 0 ≤ hi ∧ hi ≤ s.length then some ⟨s.data.take hi.toNat⟩ else none

/-- The value of a string of decimal digits. -/
def digitsVal (ds : List Char) : Nat :=
  ds.foldl (fun acc c => acc * 10 + (c.toNat - 48)) 0

/-- Substring test, Go `strings.Contains msg part`. -/
def Contains (msg part : String) : Prop := part.data <:+: msg.data

instance (msg part : String) : Decidable (Contains msg part) := by
  unfold Contains
  infer_instance

/-! ## The world outside the program -/

/-- Calls issued by the process, in program order (ghost log). -/
inductive Event where
  /-- Entry of `compileAndRun(name)`. -/
  | compileAndRun (name : String)
  /-- Call `ioutil.ReadFile(path)`. -/
  | readFile (path : String)
  /-- Call `ioutil.WriteFile(path, ...)`. -/
  | writeFile (path : String)
  /-- Run `go build -buildmode=plugin -o=objectPath srcPath`. -/
  | goBuild (objectPath srcPath : String)
  /-- Call `plugin.Open(path)`. -/
  | pluginOpen (path : String)
  /-- Invocation `runFunc()` of the `Run` function of the plugin opened from `path`. -/
  | runFunc (path : String)
  /-- Call `os.Remove(path)`. -/
  | remove (path : String)
  /-- Call `os.RemoveAll(path)`. -/
  | removeAll (path : String)
  /-- Output `fmt.Fprintf(os.Stderr, "%v", err)`. -/
  | stderr (text : String)
  /-- Call `log.Fatal(err)`: prints `err` and calls `os.Exit(1)`. -/
  | logFatal (text : String)
  deriving DecidableEq, Repr

/-- State of the world as far as the process changes it. -/
structure World where
  /-- Files written by the process (or put there initially): path and content. -/
  files : List (String × Bytes)
  /-- Position of the global source of `math/rand` in its output sequence: the
  number of values drawn since the source was last seeded. -/
  draws : Nat
  /-- Calls issued so far. -/
  trace : List Event
  deriving DecidableEq, Repr

/-- Append an event to the ghost log. -/
def World.log (w : World) (e : Event) : World := { w with trace := w.trace ++ [e] }

/-- Content of the file at `path`, if it is present. -/
def fileAt (w : World) (path : String) : Option Bytes :=
  (w.files.find? (fun f => f.1 == path)).map (fun f => f.2)

/-- Effect of a successful `ioutil.WriteFile(path, data, 0666)` (also of the
compiler writing its output): the file is created or replaced. -/
def putFile (files : List (String × Bytes)) (path : String) (data : Bytes) :
    List (String × Bytes) :=
  (path, data) :: files.filter (fun f => f.1 != path)

/-- Go `os.Remove(name)` on a file of the process's own scratch directory: the
file is unlinked; if it does not exist the call fails and nothing changes.  The
program discards the result. -/
def osRemove (name : String) (w : World) : World :=
  { w with files := w.files.filter (fun f => f.1 != name), trace := w.trace ++ [Event.remove name] }

/-- Whether `path` is `dir` itself or lies below it.  Both are compared cleaned,
since `/work//plugins/` and `/work/plugins` name the same directory; for the
empty `dir` nothing lies below (`os.RemoveAll("")` removes nothing). -/
def isUnder (dir path : String) : Bool :=
  dir != "" &&
    (Clean path == Clean dir ||
      (if Clean dir = "/" then "/" else Clean dir ++ "/").data.isPrefixOf (Clean path).data)

/-- Go `os.RemoveAll(path)`: removes `path` and any children it contains. -/
def osRemoveAll (path : String) (w : World) : World :=
  { w with files := w.files.filter (fun f => !isUnder path f.1),
           trace := w.trace ++ [Event.removeAll path] }

/-- Outcome of a call that runs Go code: a function with result `(T, error)` returns a
value or an error; any code may instead panic or end the process. -/
inductive Res (α : Type) where
  /-- Returned a value and a nil error. -/
  | ok (v : α)
  /-- Returned a non-nil error with this message. -/
  | err (msg : String)
  /-- Did not return: run-time panic. -/
  | panic (msg : String)
  /-- Did not return: `os.Exit(code)` ended the process. -/
  | exit (code : Nat)
  deriving DecidableEq, Repr

/-- How control leaves a loop of `main` other than by finishing it. -/
inductive Abort where
  /-- A panic unwinds the stack, running deferred calls. -/
  | panic (msg : String)
  /-- The process has ended in `os.Exit(code)`; deferred calls do not run. -/
  | exit (code : Nat)
  deriving DecidableEq, Repr

/-- Value stored under a plugin symbol, as far as `call` inspects it. -/
inductive Symbol where
  /-- A value of dynamic type `func() error`.  Calling it runs plugin code in the
  process: the code sees the world, may rewrite the tracked files and the state
  of the shared random source (the fields `files` and `draws` of its result are
  taken over), and returns nil (`ok`), returns an error (`err`), panics or ends
  the process. -/
  | funcError (run : World → World × Res Unit)
  /-- A value of any other dynamic type; `typeName` is what `%T` prints. -/
  | other (typeName : String)

/-- Go `*plugin.Plugin`. -/
structure Plugin where
  /-- Go `(*plugin.Plugin).Lookup`: the symbol, or the error message. -/
  Lookup : String → Except String Symbol

/-- Everything the program obtains from outside.  Each oracle sees the world at
the moment of the call, so its answers may change from call to call. -/
structure Env where
  /-- Go `os.Getwd()`. -/
  Getwd : World → Except String String
  /-- Go `ioutil.TempDir("", "")`: the path of the new directory. -/
  TempDir : World → Except String String
  /-- Go `os.Open(dir)`: `some` error message on failure. -/
  Open : World → String → Option String
  /-- Go `dir.Readdirnames(-1)`: the names in directory order. -/
  Readdirnames : World → String → Except String (List String)
  /-- Go `ioutil.ReadFile(path)`. -/
  ReadFile : World → String → Except String Bytes
  /-- Output sequence of the global source of `math/rand` from its initial state
  (the default seed 1, which `rand.Seed(1)` restores). -/
  Int63 : Nat → Nat
  /-- Go `ioutil.WriteFile(path, data, 0666)`: `some` error message on failure. -/
  WriteFile : World → String → Bytes → Option String
  /-- Running `go build -buildmode=plugin -o=objectPath srcPath` (`cmd.Run()`):
  the bytes of the object written to `objectPath`, or the error of `cmd.Run`
  (the tool could not be started or exited non-zero). -/
  GoBuild : World → String → String → Except String Bytes
  /-- Go `plugin.Open(path)`: the plugin or the error; the init functions of the
  plugin run during the call and may panic or end the process. -/
  PluginOpen : World → String → Res Plugin

/-- Go `rand.Int()`: the next value of the source, a non-negative 63-bit integer. -/
def randInt (env : Env) (w : World) : Nat × World :=
  (env.Int63 w.draws % 2 ^ 63, { w with draws := w.draws + 1 })

/-! ## The program -/

/-- Go `type loader struct { pluginsDir string; objectsDir string }`. -/
structure loader where
  pluginsDir : String
  objectsDir : String
  deriving DecidableEq, Repr

/-- Go `func newLoader() (*loader, error)` (main.go 62-76). -/
def newLoader (env : Env) (w : World) : Except String loader :=
  match env.Getwd w with
  | .error err => .error ("could not find current directory: " ++ err)
  | .ok wd =>
    let pluginsDir := Join wd "plugins"
    match env.TempDir w with
    | .error err => .error ("could not create objects dir: " ++ err)
    | .ok tmp => .ok { pluginsDir := pluginsDir, objectsDir := tmp }

/-- Go `func (l *loader) destroy() { os.RemoveAll(l.pluginsDir) }` (main.go 78). -/
def loader.destroy (l : loader) (w : World) : World := osRemoveAll l.pluginsDir w

/-- Go `func (l *loader) compile(name string) (string, error)` (main.go 95-121). -/
def loader.compile (env : Env) (l : loader) (name : String) (w : World) : Res String × World :=
  let path := Join l.pluginsDir name
  match env.ReadFile w path with
  | .error err => (.err ("could not read " ++ name ++ ": " ++ err), w.log (.readFile path))
  | .ok f =>
    let w := w.log (.readFile path)
    let (n, w) := randInt env w
    let name := Nat.repr n ++ ".go"
    let srcPath := Join l.objectsDir name
    match env.WriteFile w srcPath f with
    | some err => (.err ("could not write " ++ name ++ ": " ++ err), w.log (.writeFile srcPath))
    | none =>
      let w := { w.log (.writeFile srcPath) with files := putFile w.files srcPath f }
      match sliceTo srcPath ((srcPath.length : Int) - 3) with
      | none => (.panic "runtime error: slice bounds out of range", w)
      | some base =>
        let objectPath := base ++ ".so"
        match env.GoBuild w objectPath srcPath with
        | .error err =>
          (.err ("could not compile " ++ name ++ ": " ++ err), w.log (.goBuild objectPath srcPath))
        | .ok object =>
          (.ok objectPath,
            { w.log (.goBuild objectPath srcPath) with files := putFile w.files objectPath object })

/-- Go `func (l *loader) call(object string) error` (main.go 125-142); `ok ()` is
the nil error.  A panic or exit of the plugin's code is passed on. -/
def loader.call (env : Env) (_l : loader) (object : String) (w : World) : Res Unit × World :=
  match env.PluginOpen w object with
  | .err err => (.err ("could not open " ++ object ++ ": " ++ err), w.log (.pluginOpen object))
  | .panic msg => (.panic msg, w.log (.pluginOpen object))
  | .exit code => (.exit code, w.log (.pluginOpen object))
  | .ok p =>
    let w := w.log (.pluginOpen object)
    match p.Lookup "Run" with
    | .error err => (.err ("could not find Run function: " ++ err), w)
    | .ok run =>
      match run with
      | .other typeName =>
        (.err ("found Run but type is " ++ typeName ++ " instead of func() error"), w)
      | .funcError runFunc =>
        let r := runFunc w
        let w := { w.log (.runFunc object) with files := r.1.files, draws := r.1.draws }
        match r.2 with
        | .err err => (.err ("plugin failed with error " ++ err), w)
        | .ok _ => (.ok (), w)
        | .panic msg => (.panic msg, w)
        | .exit code => (.exit code, w)

/-- Go `func (l *loader) compileAndRun(name string) error` (main.go 80-91).
The deferred `os.Remove(obj)` runs when the function returns after `call`, and
also while a panic of `call` unwinds; it does not run when the process ends in
`os.Exit`. -/
def loader.compileAndRun (env : Env) (l : loader) (name : String) (w : World) :
    Res Unit × World :=
  match l.compile env name (w.log (.compileAndRun name)) with
  | (.err err, w) => (.err ("could not compile " ++ name ++ ": " ++ err), w)
  | (.panic msg, w) => (.panic msg, w)
  | (.exit code, w) => (.exit code, w)
  | (.ok obj, w) =>
    match l.call env obj w with
    | (.err err, w) => (.err ("could not run " ++ obj ++ ": " ++ err), osRemove obj w)
    | (.ok _, w) => (.ok (), osRemove obj w)
    | (.panic msg, w) => (.panic msg, osRemove obj w)
    | (.exit code, w) => (.exit code, w)

/-- The loop `for _, name := range names { if filepath.Ext(name) == ".go" { res = append(res, name) } }`
of `plugins` (main.go 156-162); the second argument is `res`. -/
def appendGoFiles : List String → List String → List String
  | [], res => res
  | name :: names, res =>
    if Ext name = ".go" then appendGoFiles names (res ++ [name])
    else appendGoFiles names res

/-- Go `func (l *loader) plugins() []string` (main.go 145-163).  `Except.error`
is `log.Fatal(err)`: the process prints the error and exits with code 1. -/
def loader.plugins (env : Env) (l : loader) (w : World) : Except String (List String) :=
  match env.Open w l.pluginsDir with
  | some err => .error err
  | none =>
    match env.Readdirnames w l.pluginsDir with
    | .error err => .error err
    | .ok names => .ok (appendGoFiles names [])

/-- The loop `for _, name := range l.plugins() { ... }` of `main` (main.go 47-51)
over the list that `plugins` returned.  An error of `compileAndRun` is printed;
a panic or exit leaves the loop (`Except.error`, with the world at that moment). -/
def rangeLoop (env : Env) (l : loader) : List String → World → Except (Abort × World) World
  | [], w => .ok w
  | name :: names, w =>
    match l.compileAndRun env name w with
    | (.err err, w) => rangeLoop env l names (w.log (.stderr err))
    | (.ok _, w) => rangeLoop env l names w
    | (.panic msg, w) => .error (.panic msg, w)
    | (.exit code, w) => .error (.exit code, w)

/-- What has become of the process. -/
inductive Status where
  /-- Still inside the poll loop of `main`. -/
  | running (w : World)
  /-- Exited with this code. -/
  | exited (code : Nat) (w : World)
  deriving DecidableEq, Repr

/-- The loop `for { ... }` of `main` (main.go 46-52), run for at most `fuel`
iterations.  `log.Fatal` inside `plugins` exits with code 1 through `os.Exit`,
which does not run deferred calls; a panic unwinds `main`, runs the deferred
`l.destroy()` and ends the process with code 2; `os.Exit(code)` in plugin code
ends the process with that code. -/
def pollLoop (env : Env) (l : loader) : Nat → World → Status
  | 0, w => .running w
  | fuel + 1, w =>
    match l.plugins env w with
    | .error err => .exited 1 (w.log (.logFatal err))
    | .ok names =>
      match rangeLoop env l names w with
      | .error (.panic _, w) => .exited 2 (l.destroy w)
      | .error (.exit code, w) => .exited code w
      | .ok w => pollLoop env l fuel w

/-- Go `func main()` (main.go 38-53), observed after at most `fuel` iterations
of its poll loop. -/
def main (env : Env) (fuel : Nat) (w : World) : Status :=
  match newLoader env w with
  | .error err => .exited 2 (w.log (.stderr err))
  | .ok l => pollLoop env l fuel w

/-- Names on which `compileAndRun` was entered, in order. -/
def invocations (t : List Event) : List String :=
  t.filterMap (fun e => match e with | .compileAndRun name => some name | _ => none)

/-- Messages written to standard error by `main`, in order. -/
def printed (t : List Event) : List String :=
  t.filterMap (fun e => match e with | .stderr text => some text | _ => none)

/-- Whether the event belongs to the load step (`call`) or is the removal of the artifact. -/
def Event.isLoadOrRemove : Event → Bool
  | .pluginOpen _ => true
  | .runFunc _ => true
  | .remove _ => true
  | _ => false

/-- Whether the event is the teardown `os.RemoveAll`. -/
def Event.isRemoveAll : Event → Bool
  | .removeAll _ => true
  | _ => false

/-! ## Concrete runs used to instantiate the theorems -/

/-- A plugin that exports `Run` of type `func() error` and no other symbol; its `Run`
leaves the world as it is and ends as `r`. -/
def pluginReturning (r : Res Unit) : Plugin where
  Lookup := fun s =>
    if s = "Run" then .ok (.funcError (fun v => (v, r)))
    else .error ("plugin: symbol " ++ s ++ " not found")

/-- A plugin whose `Run` re-seeds the shared random source with the default seed
(`rand.Seed(1)`), so that the source starts over, and returns nil. -/
def pluginReseeding : Plugin where
  Lookup := fun s =>
    if s = "Run" then .ok (.funcError (fun v => ({ v with draws := 0 }, .ok ())))
    else .error ("plugin: symbol " ++ s ++ " not found")

/-- A plugin that exports no symbol at all. -/
def pluginWithoutRun : Plugin where
  Lookup := fun s => .error ("plugin: symbol " ++ s ++ " not found")

/-- A plugin whose `Run` takes an argument. -/
def pluginWrongType : Plugin where
  Lookup := fun s =>
    if s = "Run" then .ok (.other "func(int) error")
    else .error ("plugin: symbol " ++ s ++ " not found")

/-- The loader of a process started in `/work` with scratch directory `/tmp/objs`. -/
def demoLoader : loader := { pluginsDir := "/work/plugins", objectsDir := "/tmp/objs" }

/-- A world in which the process has not done anything yet and the plugin
directory holds the file `a.go`. -/
def startWorld : World := { files := [("/work/plugins/a.go", [1, 2])], draws := 0, trace := [] }

/-- A run with four directory entries: `a.go` builds and its `Run` fails with
"boom", `README.md` is no source file, `b.go` does not build and `c.go` cannot be
read.  The random source yields 7, 8, 9, ... -/
def demoEnv : Env where
  Getwd := fun _ => .ok "/work"
  TempDir := fun _ => .ok "/tmp/objs"
  Open := fun _ _ => none
  Readdirnames := fun _ _ => .ok ["a.go", "README.md", "b.go", "c.go"]
  ReadFile := fun _ path =>
    if path = "/work/plugins/a.go" then .ok [1, 2]
    else if path = "/work/plugins/b.go" then .ok [3]
    else .error ("open " ++ path ++ ": no such file or directory")
  Int63 := fun i => 7 + i
  WriteFile := fun _ _ _ => none
  GoBuild := fun w _ srcPath =>
    if fileAt w srcPath = some [1, 2] then .ok [127, 69, 76, 70] else .error "exit status 2"
  PluginOpen := fun _ _ => .ok (pluginReturning (.err "boom"))

/-- The run `demoEnv` in which every object opens as the plugin `p`. -/
def envOpening (p : Plugin) : Env := { demoEnv with PluginOpen := fun _ _ => .ok p }

/-- The run `demoEnv` in which no object can be opened. -/
def envNotOpening : Env :=
  { demoEnv with PluginOpen := fun _ path => .err ("plugin.Open(" ++ path ++ "): not a plugin") }

/-- The run `demoEnv` of a process that cannot determine its working directory. -/
def noWorkingDirEnv : Env :=
  { demoEnv with Getwd := fun _ => .error "getwd: no such file or directory" }

/-- The run `demoEnv` in a plugin directory that cannot be opened. -/
def unreadableDirEnv : Env :=
  { demoEnv with Open := fun _ dir => some ("open " ++ dir ++ ": permission denied") }


/-! ## Path lemmas -/

theorem atSepOrEnd_append_sep (xs ys : List Char) :
    atSepOrEnd (xs ++ '/' :: ys) = atSepOrEnd xs := by
  cases xs <;> simp [atSepOrEnd, isPathSeparator]

theorem atSepOrEnd_cons (c : Char) (xs : List Char) :
    atSepOrEnd (c :: xs) = isPathSeparator c := rfl

/-- A separator is skipped, in the copy loop as at the start of an element. -/
theorem cleanLoop_sep (rooted inElem : Bool) (c : Char) (rest out : List Char) (dotdot : Nat)
    (hc : isPathSeparator c = true) :
    cleanLoop rooted inElem (c :: rest) out dotdot = cleanLoop rooted false rest out dotdot := by
  cases inElem <;> cases rest <;> simp [cleanLoop, hc]

/-- A character that is neither a separator nor a dot starts a real path element. -/
theorem cleanLoop_elem (rooted : Bool) (c : Char) (rest out : List Char) (dotdot : Nat)
    (hc : isPathSeparator c = false) (hd : c ≠ '.') :
    cleanLoop rooted false (c :: rest) out dotdot =
      cleanLoop rooted true rest (startElem rooted out c) dotdot := by
  cases rest <;> simp [cleanLoop, hc, hd]

/-- One step of the loop at the start of an element with two characters ahead. -/
theorem cleanLoop_two (rooted : Bool) (c c2 : Char) (rest2 out : List Char) (dotdot : Nat) :
    cleanLoop rooted false (c :: c2 :: rest2) out dotdot =
      if isPathSeparator c then cleanLoop rooted false (c2 :: rest2) out dotdot
      else if c = '.' ∧ atSepOrEnd (c2 :: rest2) then cleanLoop rooted false (c2 :: rest2) out dotdot
      else if c = '.' ∧ c2 = '.' ∧ atSepOrEnd rest2 then
        if out.length > dotdot then
          cleanLoop rooted false rest2 (out.take (backtrackW out dotdot (out.length - 1))) dotdot
        else if ¬ rooted then
          cleanLoop rooted false rest2 ((if out.length > 0 then out ++ ['/'] else out) ++ ['.', '.'])
            ((if out.length > 0 then out ++ ['/'] else out) ++ ['.', '.']).length
        else cleanLoop rooted false rest2 out dotdot
      else cleanLoop rooted true (c2 :: rest2) (startElem rooted out c) dotdot := by
  rfl

/-- Inner copy loop: an element without separator is copied to the buffer. -/
theorem cleanLoop_copy (rooted : Bool) :
    ∀ (ds out : List Char) (dotdot : Nat), (∀ c ∈ ds, isPathSeparator c = false) →
      cleanLoop rooted true ds out dotdot = (out ++ ds, dotdot)
  | [], out, dotdot, _ => by simp [cleanLoop]
  | c :: ds, out, dotdot, h => by
    have hc : isPathSeparator c = false := h c (List.mem_cons_self _ _)
    have hds : ∀ x ∈ ds, isPathSeparator x = false := fun x hx => h x (List.mem_cons_of_mem _ hx)
    simp [cleanLoop, hc, cleanLoop_copy rooted ds (out ++ [c]) dotdot hds]

/-- Reading `xs ++ "/" ++ ys` is reading `xs` and then `ys`. -/
theorem cleanLoop_append_sep (rooted : Bool) (ys : List Char) :
    ∀ (xs : List Char) (inElem : Bool) (out : List Char) (dotdot : Nat),
      cleanLoop rooted inElem (xs ++ '/' :: ys) out dotdot =
        cleanLoop rooted false ys (cleanLoop rooted inElem xs out dotdot).1
          (cleanLoop rooted inElem xs out dotdot).2
  | [], inElem, out, dotdot => by
    have h := cleanLoop_sep rooted inElem '/' ys out dotdot (by decide)
    simpa [cleanLoop] using h
  | c :: rest, true, out, dotdot => by
    by_cases hc : isPathSeparator c = true
    · simp [cleanLoop, hc, cleanLoop_append_sep rooted ys rest false out dotdot]
    · simp [cleanLoop, hc, cleanLoop_append_sep rooted ys rest true (out ++ [c]) dotdot]
  | [c], false, out, dotdot => by
    have hs : ∀ o d, cleanLoop rooted false ('/' :: ys) o d = cleanLoop rooted false ys o d :=
      fun o d => cleanLoop_sep rooted false '/' ys o d (by decide)
    by_cases hc : isPathSeparator c = true
    · simp [cleanLoop, hc, hs]
    · by_cases hd : c = '.'
      · simp [cleanLoop, hc, hd, atSepOrEnd, isPathSeparator, hs]
      · have hc2 : isPathSeparator c = false := by simpa using hc
        rw [List.singleton_append, cleanLoop_elem rooted c _ _ _ hc2 hd,
          cleanLoop_sep rooted true '/' ys _ _ (by decide)]
        simp [cleanLoop, hc2, hd, atSepOrEnd]
  | c :: c2 :: rest2, false, out, dotdot => by
    have ih1 := cleanLoop_append_sep rooted ys (c2 :: rest2)
    have ih2 := cleanLoop_append_sep rooted ys rest2
    simp only [List.cons_append] at ih1 ⊢
    rw [cleanLoop_two rooted c c2 (rest2 ++ '/' :: ys), cleanLoop_two rooted c c2 rest2]
    simp only [atSepOrEnd_append_sep, atSepOrEnd_cons]
    split_ifs <;> simp only [ih1, ih2]

/-- A plain file name (no separator, not starting with a dot) is one real path element. -/
theorem cleanLoop_plain (rooted : Bool) (d : Char) (ds out : List Char) (dotdot : Nat)
    (hd : isPathSeparator d = false) (hdot : d ≠ '.')
    (hds : ∀ c ∈ ds, isPathSeparator c = false) :
    cleanLoop rooted false (d :: ds) out dotdot = (startElem rooted out d ++ ds, dotdot) := by
  rw [cleanLoop_elem rooted d ds out dotdot hd hdot, cleanLoop_copy rooted ds _ dotdot hds]

/-- Cleaning a plain file name returns it unchanged. -/
theorem cleanChars_plain (d : Char) (ds : List Char)
    (hd : isPathSeparator d = false) (hdot : d ≠ '.')
    (hds : ∀ c ∈ ds, isPathSeparator c = false) :
    cleanChars (d :: ds) = d :: ds := by
  simp [cleanChars, hd, cleanLoop_plain false d ds [] 0 hd hdot hds, startElem, needSep]

/-- Cleaning `dir/name` for a plain file name: the part of the directory, then
the name unchanged. -/
theorem cleanChars_dir_plain (c : Char) (rest : List Char) (d : Char) (ds : List Char)
    (hd : isPathSeparator d = false) (hdot : d ≠ '.')
    (hds : ∀ x ∈ ds, isPathSeparator x = false) :
    cleanChars (c :: rest ++ '/' :: d :: ds) = (joinBase ⟨c :: rest⟩).data ++ d :: ds := by
  by_cases hc : isPathSeparator c = true
  · simp [cleanChars, joinBase, hc, cleanLoop_append_sep true (d :: ds) rest,
      cleanLoop_plain true d ds _ _ hd hdot hds, startElem]
  · have h := cleanLoop_append_sep false (d :: ds) (c :: rest) false [] 0
    simp only [List.cons_append] at h
    simp [cleanChars, joinBase, hc, h, cleanLoop_plain false d ds _ _ hd hdot hds, startElem]

/-- Joining a directory and a plain file name appends the name to `joinBase dir`. -/
theorem Join_plain (dir name : String) (d : Char) (ds : List Char) (hname : name.data = d :: ds)
    (hd : isPathSeparator d = false) (hdot : d ≠ '.')
    (hds : ∀ x ∈ ds, isPathSeparator x = false) :
    Join dir name = joinBase dir ++ name := by
  have hne : name ≠ "" := by
    intro h
    rw [h] at hname
    simp at hname
  apply String.ext
  cases hdir : dir.data with
  | nil =>
    have hdir2 : dir = "" := String.ext (by simpa using hdir)
    subst hdir2
    simp [Join, hne, Clean, hname, cleanChars_plain d ds hd hdot hds, joinBase]
  | cons c rest =>
    have hdne : dir ≠ "" := by
      intro h
      rw [h] at hdir
      simp at hdir
    have hj : joinBase dir = joinBase ⟨c :: rest⟩ := by
      simp [joinBase, hdir]
    have hcl := cleanChars_dir_plain c rest d ds hd hdot hds
    simp only [List.cons_append] at hcl
    simp [Join, hdne, Clean, hname, hdir, hj, hcl]

/-! ## Decimal rendering -/

theorem digitChar_spec : ∀ k, k < 10 →
    (Nat.digitChar k).isDigit = true ∧ (Nat.digitChar k).toNat - 48 = k := by
  decide

theorem digitsVal_append_single (pre : List Char) (c : Char) :
    digitsVal (pre ++ [c]) = digitsVal pre * 10 + (c.toNat - 48) := by
  simp [digitsVal, List.foldl_append]

/-- With enough fuel `Nat.toDigitsCore 10` puts a non-empty run of decimal digits
with value `n` in front of the accumulator. -/
theorem toDigitsCore_spec : ∀ (fuel n : Nat) (acc : List Char), n < fuel →
    ∃ pre, Nat.toDigitsCore 10 fuel n acc = pre ++ acc ∧ pre ≠ [] ∧
      (∀ c ∈ pre, c.isDigit = true) ∧ digitsVal pre = n
  | 0, n, acc, h => absurd h (Nat.not_lt_zero n)
  | fuel + 1, n, acc, h => by
    obtain ⟨hdig, hval⟩ := digitChar_spec (n % 10) (Nat.mod_lt n (by decide))
    by_cases hq : n / 10 = 0
    · refine ⟨[Nat.digitChar (n % 10)], ?_, by simp, ?_, ?_⟩
      · simp [Nat.toDigitsCore, hq]
      · simpa using hdig
      · have hlt : n < 10 := by omega
        have hm : n % 10 = n := Nat.mod_eq_of_lt hlt
        simp only [digitsVal, List.foldl_cons, List.foldl_nil, Nat.zero_mul, Nat.zero_add, hval]
        exact hm
    · have hlt : n / 10 < fuel := by omega
      obtain ⟨pre, hpre, _, hall, hv⟩ :=
        toDigitsCore_spec fuel (n / 10) (Nat.digitChar (n % 10) :: acc) hlt
      refine ⟨pre ++ [Nat.digitChar (n % 10)], ?_, by simp, ?_, ?_⟩
      · simp [Nat.toDigitsCore, hq, hpre]
      · intro c hc
        rcases List.mem_append.mp hc with hc | hc
        · exact hall c hc
        · have : c = Nat.digitChar (n % 10) := by simpa using hc
          rw [this]; exact hdig
      · rw [digitsVal_append_single, hv, hval]
        omega

/-- The decimal rendering of a natural number is a non-empty run of digits with
that value. -/
theorem repr_spec (n : Nat) :
    (Nat.repr n).data ≠ [] ∧ (∀ c ∈ (Nat.repr n).data, c.isDigit = true) ∧
      digitsVal (Nat.repr n).data = n := by
  obtain ⟨pre, hpre, hne, hall, hv⟩ := toDigitsCore_spec (n + 1) n [] (Nat.lt_succ_self n)
  have h : (Nat.repr n).data = pre := by
    simp [Nat.repr, Nat.toDigits, hpre, List.asString]
  rw [h]
  exact ⟨hne, hall, hv⟩

/-- Different numbers have different decimal renderings. -/
theorem repr_injective (n m : Nat) (h : Nat.repr n = Nat.repr m) : n = m := by
  have hn := (repr_spec n).2.2
  have hm := (repr_spec m).2.2
  rw [h] at hn
  omega

theorem isDigit_not_sep (c : Char) (h : c.isDigit = true) :
    isPathSeparator c = false ∧ c ≠ '.' := by
  constructor
  · by_contra hc
    have : c = '/' := by simpa [isPathSeparator] using hc
    subst this
    revert h
    decide
  · rintro rfl
    revert h
    decide

/-- The file names that `compile` builds, a decimal number and an extension
without separator, are joined to the directory unchanged. -/
theorem Join_repr (dir : String) (n : Nat) (ext : String)
    (hext : ∀ c ∈ ext.data, isPathSeparator c = false) :
    Join dir (Nat.repr n ++ ext) = joinBase dir ++ (Nat.repr n ++ ext) := by
  obtain ⟨hne, hall, _⟩ := repr_spec n
  cases hr : (Nat.repr n).data with
  | nil => exact absurd hr hne
  | cons d ds =>
    rw [hr] at hall
    have hd := isDigit_not_sep d (hall d (List.mem_cons_self _ _))
    refine Join_plain dir (Nat.repr n ++ ext) d (ds ++ ext.data) (by simp [hr]) hd.1 hd.2 ?_
    intro x hx
    rcases List.mem_append.mp hx with hx | hx
    · exact (isDigit_not_sep x (hall x (List.mem_cons_of_mem _ hx))).1
    · exact hext x hx

/-! ## The paths built by `compile` -/

theorem ext_go_no_sep : ∀ c ∈ (".go" : String).data, isPathSeparator c = false := by decide

theorem ext_so_no_sep : ∀ c ∈ (".so" : String).data, isPathSeparator c = false := by decide

/-- The slice `srcPath[:len(srcPath)-3]` is always within bounds and cuts the
extension `.go` off the source path. -/
theorem sliceTo_srcPath (dir : String) (n : Nat) :
    sliceTo (Join dir (Nat.repr n ++ ".go"))
        (((Join dir (Nat.repr n ++ ".go")).length : Int) - 3) =
      some (joinBase dir ++ Nat.repr n) := by
  rw [Join_repr dir n ".go" ext_go_no_sep]
  have hlen : (joinBase dir ++ (Nat.repr n ++ ".go")).length =
      (joinBase dir).length + (Nat.repr n).length + 3 := by
    simp [String.length_append]
    rfl
  have hhi : (((joinBase dir ++ (Nat.repr n ++ ".go")).length : Int) - 3) =
      (((joinBase dir).length + (Nat.repr n).length : Nat) : Int) := by
    rw [hlen]; push_cast; ring
  rw [hhi]
  unfold sliceTo
  rw [if_pos]
  · congr 1
    apply String.ext
    simp only [Int.toNat_ofNat, String.data_append]
    rw [← List.append_assoc]
    have : (joinBase dir).length + (Nat.repr n).length =
        ((joinBase dir).data ++ (Nat.repr n).data).length := by
      rw [List.length_append]
      rfl
    rw [this, List.take_left]
  · constructor
    · exact Int.ofNat_nonneg _
    · rw [hlen]; exact_mod_cast Nat.le_add_right _ _

/-- The object path is the source path with `.go` replaced by `.so`:
`objectsDir/D.so`. -/
theorem objectPath_eq (dir : String) (n : Nat) :
    joinBase dir ++ Nat.repr n ++ ".so" = Join dir (Nat.repr n ++ ".so") := by
  rw [Join_repr dir n ".so" ext_so_no_sep]
  apply String.ext
  simp

/-- The source path has at least the three characters that the slice cuts off. -/
theorem srcPath_length (dir : String) (n : Nat) :
    3 ≤ (Join dir (Nat.repr n ++ ".go")).length := by
  rw [Join_repr dir n ".go" ext_go_no_sep]
  simp only [String.length_append]
  have : (".go" : String).length = 3 := rfl
  omega

/-- Source path and object path of one build differ. -/
theorem srcPath_ne_objectPath (dir : String) (n m : Nat) :
    Join dir (Nat.repr n ++ ".go") ≠ Join dir (Nat.repr m ++ ".so") := by
  rw [Join_repr dir n ".go" ext_go_no_sep, Join_repr dir m ".so" ext_so_no_sep]
  intro h
  have h2 : ((joinBase dir).data ++ (Nat.repr n).data) ++ ['.', 'g', 'o'] =
      ((joinBase dir).data ++ (Nat.repr m).data) ++ ['.', 's', 'o'] := by
    have hg : (".go" : String).data = ['.', 'g', 'o'] := rfl
    have hs : (".so" : String).data = ['.', 's', 'o'] := rfl
    have := congrArg String.data h
    simp only [String.data_append, hg, hs] at this
    simp only [List.append_assoc]
    exact this
  have h3 := (List.append_inj' h2 rfl).2
  exact absurd h3 (by decide)

/-- Paths built from different numbers differ, paths from equal numbers agree. -/
theorem Join_repr_inj (dir : String) (n m : Nat) (ext : String)
    (hext : ∀ c ∈ ext.data, isPathSeparator c = false) :
    Join dir (Nat.repr n ++ ext) = Join dir (Nat.repr m ++ ext) ↔ n = m := by
  constructor
  · intro h
    rw [Join_repr dir n ext hext, Join_repr dir m ext hext] at h
    have h2 := congrArg String.data h
    simp only [String.data_append, List.append_cancel_left_eq, List.append_cancel_right_eq] at h2
    exact repr_injective n m (String.ext h2)
  · rintro rfl
    rfl

/-- For a directory path that is already clean, other than `.` and `/`, `joinBase`
appends the separator. -/
theorem joinBase_of_clean (dir : String) (hc : Clean dir = dir) (h1 : dir ≠ ".")
    (h2 : dir ≠ "/") : joinBase dir = dir ++ "/" := by
  have hd : cleanChars dir.data = dir.data := congrArg String.data hc
  cases hdir : dir.data with
  | nil =>
    rw [hdir] at hd
    simp [cleanChars] at hd
  | cons c rest =>
    rw [hdir] at hd
    simp only [cleanChars] at hd
    by_cases hlen : (if isPathSeparator c = true then (cleanLoop true false rest ['/'] 1).1
        else (cleanLoop false false (c :: rest) [] 0).1).length = 0
    · rw [if_pos hlen] at hd
      exact absurd (String.ext (by rw [hdir, ← hd])) h1
    · rw [if_neg hlen] at hd
      apply String.ext
      simp only [joinBase, hdir, String.data_append]
      by_cases hr : isPathSeparator c = true
      · simp only [hr, if_true] at hd ⊢
        rw [hd]
        have hne : (c :: rest).length ≠ 1 := by
          intro h
          have hrest : rest = [] := by
            cases rest with
            | nil => rfl
            | cons _ _ => simp at h
          have hcs : c = '/' := by simpa [isPathSeparator] using hr
          exact h2 (String.ext (by rw [hdir, hrest, hcs]))
        have : needSep true (c :: rest) = true := by
          simp only [needSep, Bool.true_and, Bool.not_true, Bool.false_and, Bool.or_false]
          simpa using hne
        rw [this]
        rfl
      · simp only [hr] at hd ⊢
        simp only [Bool.false_eq_true, if_false] at hd ⊢
        rw [hd]
        have : needSep false (c :: rest) = true := by
          simp [needSep]
        rw [this]
        rfl

/-! ## `compile` -/

/-- The function `compile` with the slice resolved: it reads `pluginsDir/name`, draws `n`,
writes the copy `objectsDir/n.go`, builds `objectsDir/n.so` and returns that
path; each step that fails ends it with an error. -/
theorem compile_eq (env : Env) (l : loader) (name : String) (w : World) :
    l.compile env name w =
      match env.ReadFile w (Join l.pluginsDir name) with
      | .error err =>
        (.err ("could not read " ++ name ++ ": " ++ err),
          ⟨w.files, w.draws, w.trace ++ [.readFile (Join l.pluginsDir name)]⟩)
      | .ok f =>
        match env.WriteFile
            ⟨w.files, w.draws + 1, w.trace ++ [.readFile (Join l.pluginsDir name)]⟩
            (Join l.objectsDir (Nat.repr (env.Int63 w.draws % 2 ^ 63) ++ ".go")) f with
        | some err =>
          (.err ("could not write " ++ (Nat.repr (env.Int63 w.draws % 2 ^ 63) ++ ".go") ++ ": " ++ err),
            ⟨w.files, w.draws + 1, w.trace ++ [.readFile (Join l.pluginsDir name)] ++
              [.writeFile (Join l.objectsDir (Nat.repr (env.Int63 w.draws % 2 ^ 63) ++ ".go"))]⟩)
        | none =>
          match env.GoBuild
              ⟨putFile w.files (Join l.objectsDir (Nat.repr (env.Int63 w.draws % 2 ^ 63) ++ ".go")) f,
                w.draws + 1, w.trace ++ [.readFile (Join l.pluginsDir name)] ++
                [.writeFile (Join l.objectsDir (Nat.repr (env.Int63 w.draws % 2 ^ 63) ++ ".go"))]⟩
              (Join l.objectsDir (Nat.repr (env.Int63 w.draws % 2 ^ 63) ++ ".so"))
              (Join l.objectsDir (Nat.repr (env.Int63 w.draws % 2 ^ 63) ++ ".go")) with
          | .error err =>
            (.err ("could not compile " ++ (Nat.repr (env.Int63 w.draws % 2 ^ 63) ++ ".go") ++ ": " ++ err),
              ⟨putFile w.files (Join l.objectsDir (Nat.repr (env.Int63 w.draws % 2 ^ 63) ++ ".go")) f,
                w.draws + 1, w.trace ++ [.readFile (Join l.pluginsDir name)] ++
                [.writeFile (Join l.objectsDir (Nat.repr (env.Int63 w.draws % 2 ^ 63) ++ ".go"))] ++
                [.goBuild (Join l.objectsDir (Nat.repr (env.Int63 w.draws % 2 ^ 63) ++ ".so"))
                  (Join l.objectsDir (Nat.repr (env.Int63 w.draws % 2 ^ 63) ++ ".go"))]⟩)
          | .ok object =>
            (.ok (Join l.objectsDir (Nat.repr (env.Int63 w.draws % 2 ^ 63) ++ ".so")),
              ⟨putFile
                  (putFile w.files (Join l.objectsDir (Nat.repr (env.Int63 w.draws % 2 ^ 63) ++ ".go")) f)
                  (Join l.objectsDir (Nat.repr (env.Int63 w.draws % 2 ^ 63) ++ ".so")) object,
                w.draws + 1, w.trace ++ [.readFile (Join l.pluginsDir name)] ++
                [.writeFile (Join l.objectsDir (Nat.repr (env.Int63 w.draws % 2 ^ 63) ++ ".go"))] ++
                [.goBuild (Join l.objectsDir (Nat.repr (env.Int63 w.draws % 2 ^ 63) ++ ".so"))
                  (Join l.objectsDir (Nat.repr (env.Int63 w.draws % 2 ^ 63) ++ ".go"))]⟩) := by
  simp only [loader.compile, randInt, World.log, sliceTo_srcPath, objectPath_eq]

/-- The function `compile` never panics: the slice is always within bounds. -/
theorem compile_no_panic (env : Env) (l : loader) (name : String) (w : World) (msg : String) :
    (l.compile env name w).1 ≠ .panic msg := by
  rw [compile_eq]
  split
  · simp
  · split
    · simp
    · split <;> simp

/-- The function `compile` runs no plugin code and does not end the process. -/
theorem compile_no_exit (env : Env) (l : loader) (name : String) (w : World) (code : Nat) :
    (l.compile env name w).1 ≠ .exit code := by
  rw [compile_eq]
  split
  · simp
  · split
    · simp
    · split <;> simp

/-- What a successful `compile` has done. -/
theorem compile_ok_inv (env : Env) (l : loader) (name : String) (w : World) (obj : String)
    (w1 : World) (h : l.compile env name w = (.ok obj, w1)) :
    ∃ f object, env.ReadFile w (Join l.pluginsDir name) = .ok f ∧
      obj = Join l.objectsDir (Nat.repr (env.Int63 w.draws % 2 ^ 63) ++ ".so") ∧
      w1 = ⟨putFile
              (putFile w.files (Join l.objectsDir (Nat.repr (env.Int63 w.draws % 2 ^ 63) ++ ".go")) f)
              (Join l.objectsDir (Nat.repr (env.Int63 w.draws % 2 ^ 63) ++ ".so")) object,
            w.draws + 1, w.trace ++ [.readFile (Join l.pluginsDir name)] ++
              [.writeFile (Join l.objectsDir (Nat.repr (env.Int63 w.draws % 2 ^ 63) ++ ".go"))] ++
              [.goBuild (Join l.objectsDir (Nat.repr (env.Int63 w.draws % 2 ^ 63) ++ ".so"))
                (Join l.objectsDir (Nat.repr (env.Int63 w.draws % 2 ^ 63) ++ ".go"))]⟩ := by
  rw [compile_eq] at h
  split at h
  · simp at h
  · rename_i f hr
    split at h
    · simp at h
    · split at h
      · simp at h
      · rename_i object hb
        simp only [Prod.mk.injEq, Res.ok.injEq] at h
        exact ⟨f, object, by assumption, h.1.symm, h.2.symm⟩

/-- The three ways in which `compile` fails, with the error it returns and the
calls it has issued. -/
theorem compile_err_inv (env : Env) (l : loader) (name : String) (w : World) (e : String)
    (w1 : World) (h : l.compile env name w = (.err e, w1)) :
    ((∃ e1, env.ReadFile w (Join l.pluginsDir name) = .error e1 ∧
        e = "could not read " ++ name ++ ": " ++ e1) ∨
      (∃ e1, e = "could not write " ++ (Nat.repr (env.Int63 w.draws % 2 ^ 63) ++ ".go") ++ ": " ++ e1) ∨
      (∃ e1, e = "could not compile " ++ (Nat.repr (env.Int63 w.draws % 2 ^ 63) ++ ".go") ++ ": " ++ e1)) ∧
    ∃ evs, w1.trace = w.trace ++ evs ∧ invocations evs = [] ∧ printed evs = [] ∧
      ∀ ev ∈ evs, ev.isLoadOrRemove = false ∧ ev.isRemoveAll = false := by
  rw [compile_eq] at h
  split at h
  · rename_i e1 hr
    simp only [Prod.mk.injEq, Res.err.injEq] at h
    obtain ⟨he, hw⟩ := h
    subst hw
    exact ⟨Or.inl ⟨e1, by assumption, he.symm⟩, _, rfl, rfl, rfl,
      by simp [Event.isLoadOrRemove, Event.isRemoveAll]⟩
  · split at h
    · rename_i e1 hw1
      simp only [Prod.mk.injEq, Res.err.injEq] at h
      obtain ⟨he, hw⟩ := h
      subst hw
      refine ⟨Or.inr (Or.inl ⟨e1, he.symm⟩),
        [.readFile (Join l.pluginsDir name),
          .writeFile (Join l.objectsDir (Nat.repr (env.Int63 w.draws % 2 ^ 63) ++ ".go"))],
        ?_, rfl, rfl, ?_⟩
      · simp only [List.append_assoc, List.singleton_append]
      · simp [Event.isLoadOrRemove, Event.isRemoveAll]
    · split at h
      · rename_i e1 hb
        simp only [Prod.mk.injEq, Res.err.injEq] at h
        obtain ⟨he, hw⟩ := h
        subst hw
        refine ⟨Or.inr (Or.inr ⟨e1, he.symm⟩),
          [.readFile (Join l.pluginsDir name),
            .writeFile (Join l.objectsDir (Nat.repr (env.Int63 w.draws % 2 ^ 63) ++ ".go")),
            .goBuild (Join l.objectsDir (Nat.repr (env.Int63 w.draws % 2 ^ 63) ++ ".so"))
              (Join l.objectsDir (Nat.repr (env.Int63 w.draws % 2 ^ 63) ++ ".go"))],
          ?_, rfl, rfl, ?_⟩
        · simp only [List.append_assoc, List.singleton_append, List.cons_append, List.nil_append]
        · simp [Event.isLoadOrRemove, Event.isRemoveAll]
      · simp at h

/-! ## `call` -/

/-- The calls issued by `call` are load steps; `compileAndRun` is not entered and
nothing is printed. -/
theorem call_trace (env : Env) (l : loader) (object : String) (w : World) :
    ∃ evs, (l.call env object w).2.trace = w.trace ++ evs ∧ invocations evs = [] ∧
      printed evs = [] := by
  unfold loader.call
  split
  · exact ⟨[.pluginOpen object], rfl, rfl, rfl⟩
  · exact ⟨[.pluginOpen object], rfl, rfl, rfl⟩
  · exact ⟨[.pluginOpen object], rfl, rfl, rfl⟩
  · split
    · exact ⟨[.pluginOpen object], rfl, rfl, rfl⟩
    · split
      · exact ⟨[.pluginOpen object], rfl, rfl, rfl⟩
      · refine ⟨[.pluginOpen object, .runFunc object], ?_, rfl, rfl⟩
        dsimp only
        split <;> simp [World.log]

/-- The function `call` once the plugin is open and its `Run` has type `func() error`:
`Run` is invoked once, a non-nil error is wrapped, a panic or exit is passed on,
and the plugin's changes to the files and the random source are taken over. -/
theorem call_run (env : Env) (l : loader) (object : String) (w : World) (p : Plugin)
    (run : World → World × Res Unit)
    (ho : env.PluginOpen w object = .ok p) (hl : p.Lookup "Run" = .ok (.funcError run)) :
    l.call env object w =
      ((match (run (w.log (.pluginOpen object))).2 with
        | .ok _ => Res.ok ()
        | .err e => Res.err ("plugin failed with error " ++ e)
        | .panic msg => Res.panic msg
        | .exit code => Res.exit code),
        ⟨(run (w.log (.pluginOpen object))).1.files, (run (w.log (.pluginOpen object))).1.draws,
          w.trace ++ [.pluginOpen object, .runFunc object]⟩) := by
  simp only [loader.call, ho, hl, World.log]
  cases (run ⟨w.files, w.draws, w.trace ++ [.pluginOpen object]⟩).2 <;> simp

/-- A non-nil error of `Run` is part of the error that `call` returns. -/
theorem call_run_error (env : Env) (l : loader) (object : String) (w : World) (p : Plugin)
    (run : World → World × Res Unit) (e : String)
    (ho : env.PluginOpen w object = .ok p) (hl : p.Lookup "Run" = .ok (.funcError run))
    (hr : (run (w.log (.pluginOpen object))).2 = .err e) :
    (l.call env object w).1 = .err ("plugin failed with error " ++ e) := by
  rw [call_run env l object w p run ho hl, hr]

theorem contains_append_right (a b : String) : Contains (a ++ b) b := by
  unfold Contains
  rw [String.data_append]
  exact (List.suffix_append _ _).isInfix

theorem contains_append_left (a b : String) : Contains (a ++ b) a := by
  unfold Contains
  rw [String.data_append]
  exact (List.prefix_append _ _).isInfix

theorem contains_trans (a b c : String) (h1 : Contains a b) (h2 : Contains b c) : Contains a c :=
  List.IsInfix.trans h2 h1

/-! ## `compileAndRun` and the loop over the names -/

theorem invocations_append (a b : List Event) :
    invocations (a ++ b) = invocations a ++ invocations b := by
  simp [invocations, List.filterMap_append]

theorem printed_append (a b : List Event) : printed (a ++ b) = printed a ++ printed b := by
  simp [printed, List.filterMap_append]

/-- After a failed `compile` the function `compileAndRun` returns at once, wrapping the error
with the name of the file. -/
theorem compileAndRun_err (env : Env) (l : loader) (name : String) (w : World) (e : String)
    (w1 : World) (h : l.compile env name (w.log (.compileAndRun name)) = (.err e, w1)) :
    l.compileAndRun env name w = (.err ("could not compile " ++ name ++ ": " ++ e), w1) := by
  unfold loader.compileAndRun
  rw [h]

/-- After a successful `compile` the function `compileAndRun` calls the object; unless the
process ends inside `call`, it removes the object, and it passes on the outcome of
`call`, an error wrapped with the path of the object. -/
theorem compileAndRun_ok (env : Env) (l : loader) (name : String) (w : World) (obj : String)
    (w1 : World) (h : l.compile env name (w.log (.compileAndRun name)) = (.ok obj, w1)) :
    l.compileAndRun env name w =
      match (l.call env obj w1).1 with
      | .ok _ => (Res.ok (), osRemove obj (l.call env obj w1).2)
      | .err err => (Res.err ("could not run " ++ obj ++ ": " ++ err), osRemove obj (l.call env obj w1).2)
      | .panic msg => (Res.panic msg, osRemove obj (l.call env obj w1).2)
      | .exit code => (Res.exit code, (l.call env obj w1).2) := by
  unfold loader.compileAndRun
  rw [h]
  simp only
  rcases hcall : l.call env obj w1 with ⟨r, w2⟩
  cases r <;> rfl

/-- One call of `compileAndRun`, whatever its outcome, enters `compileAndRun` exactly once, for
its argument, and prints nothing. -/
theorem compileAndRun_trace (env : Env) (l : loader) (name : String) (w : World) :
    ∃ evs, (l.compileAndRun env name w).2.trace = w.trace ++ evs ∧ invocations evs = [name] ∧
      printed evs = [] := by
  rcases hc : l.compile env name (w.log (.compileAndRun name)) with ⟨r, w1⟩
  cases r with
  | panic msg =>
    have := compile_no_panic env l name (w.log (.compileAndRun name)) msg
    rw [hc] at this
    exact absurd rfl this
  | exit code =>
    have := compile_no_exit env l name (w.log (.compileAndRun name)) code
    rw [hc] at this
    exact absurd rfl this
  | err e =>
    rw [compileAndRun_err env l name w e w1 hc]
    obtain ⟨_, evs, ht, hi, hp, _⟩ := compile_err_inv env l name _ e w1 hc
    refine ⟨.compileAndRun name :: evs, ?_, ?_, ?_⟩
    · simp [ht, World.log]
    · simp [invocations] at hi ⊢
      exact hi
    · simp [printed] at hp ⊢
      exact hp
  | ok obj =>
    rw [compileAndRun_ok env l name w obj w1 hc]
    obtain ⟨f, object, _, _, hw1⟩ := compile_ok_inv env l name _ obj w1 hc
    obtain ⟨evs, ht, hi, hp⟩ := call_trace env l obj w1
    have hw1t : w1.trace = w.trace ++ [.compileAndRun name, .readFile (Join l.pluginsDir name),
        .writeFile (Join l.objectsDir (Nat.repr (env.Int63 w.draws % 2 ^ 63) ++ ".go")),
        .goBuild (Join l.objectsDir (Nat.repr (env.Int63 w.draws % 2 ^ 63) ++ ".so"))
          (Join l.objectsDir (Nat.repr (env.Int63 w.draws % 2 ^ 63) ++ ".go"))] := by
      rw [hw1]; simp [World.log]
    have removed : ∃ evs2, (osRemove obj (l.call env obj w1).2).trace = w.trace ++ evs2 ∧
        invocations evs2 = [name] ∧ printed evs2 = [] := by
      refine ⟨[.compileAndRun name, .readFile (Join l.pluginsDir name),
        .writeFile (Join l.objectsDir (Nat.repr (env.Int63 w.draws % 2 ^ 63) ++ ".go")),
        .goBuild (Join l.objectsDir (Nat.repr (env.Int63 w.draws % 2 ^ 63) ++ ".so"))
          (Join l.objectsDir (Nat.repr (env.Int63 w.draws % 2 ^ 63) ++ ".go"))] ++ evs ++
          [.remove obj], ?_, ?_, ?_⟩
      · simp [osRemove, ht, hw1t]
      · rw [invocations_append, invocations_append, hi]; rfl
      · rw [printed_append, printed_append, hp]; rfl
    have kept : ∃ evs2, (l.call env obj w1).2.trace = w.trace ++ evs2 ∧
        invocations evs2 = [name] ∧ printed evs2 = [] := by
      refine ⟨[.compileAndRun name, .readFile (Join l.pluginsDir name),
        .writeFile (Join l.objectsDir (Nat.repr (env.Int63 w.draws % 2 ^ 63) ++ ".go")),
        .goBuild (Join l.objectsDir (Nat.repr (env.Int63 w.draws % 2 ^ 63) ++ ".so"))
          (Join l.objectsDir (Nat.repr (env.Int63 w.draws % 2 ^ 63) ++ ".go"))] ++ evs, ?_, ?_, ?_⟩
      · simp [ht, hw1t]
      · rw [invocations_append, hi]; rfl
      · rw [printed_append, hp]; rfl
    cases (l.call env obj w1).1 with
    | ok u => exact removed
    | err e => exact removed
    | panic msg => exact removed
    | exit code => exact kept

/-- When plugin code neither panics nor ends the process, `compileAndRun` returns: nil or an
error. -/
theorem compileAndRun_returns (env : Env) (l : loader)
    (hret : ∀ v object, (l.call env object v).1 = .ok () ∨ ∃ e, (l.call env object v).1 = .err e)
    (name : String) (w : World) :
    (l.compileAndRun env name w).1 = .ok () ∨ ∃ e, (l.compileAndRun env name w).1 = .err e := by
  rcases hc : l.compile env name (w.log (.compileAndRun name)) with ⟨r, w1⟩
  cases r with
  | panic msg =>
    have := compile_no_panic env l name (w.log (.compileAndRun name)) msg
    rw [hc] at this
    exact absurd rfl this
  | exit code =>
    have := compile_no_exit env l name (w.log (.compileAndRun name)) code
    rw [hc] at this
    exact absurd rfl this
  | err e =>
    rw [compileAndRun_err env l name w e w1 hc]
    exact Or.inr ⟨_, rfl⟩
  | ok obj =>
    rw [compileAndRun_ok env l name w obj w1 hc]
    rcases hret w1 obj with h | ⟨e, h⟩
    · rw [h]; exact Or.inl rfl
    · rw [h]; exact Or.inr ⟨_, rfl⟩

/-- A step of the loop over the names after an error of `compileAndRun`: the error is printed
and the loop goes on. -/
theorem rangeLoop_cons_err (env : Env) (l : loader) (name : String) (names : List String)
    (w : World) (e : String) (h : (l.compileAndRun env name w).1 = .err e) :
    rangeLoop env l (name :: names) w =
      rangeLoop env l names ((l.compileAndRun env name w).2.log (.stderr e)) := by
  rw [rangeLoop]
  rcases hc : l.compileAndRun env name w with ⟨r, w1⟩
  rw [hc] at h
  simp only at h
  subst h
  rfl

/-- A step of the loop over the names after a nil result of `compileAndRun`. -/
theorem rangeLoop_cons_ok (env : Env) (l : loader) (name : String) (names : List String)
    (w : World) (h : (l.compileAndRun env name w).1 = .ok ()) :
    rangeLoop env l (name :: names) w = rangeLoop env l names (l.compileAndRun env name w).2 := by
  rw [rangeLoop]
  rcases hc : l.compileAndRun env name w with ⟨r, w1⟩
  rw [hc] at h
  simp only at h
  subst h
  rfl

/-- One step of the loop over the names when plugin code returns: an error of
`compileAndRun` is printed and the loop goes on with the remaining names. -/
theorem rangeLoop_cons (env : Env) (l : loader)
    (hret : ∀ v object, (l.call env object v).1 = .ok () ∨ ∃ e, (l.call env object v).1 = .err e)
    (name : String) (names : List String) (w : World) :
    rangeLoop env l (name :: names) w =
      rangeLoop env l names
        (match l.compileAndRun env name w with
          | (.err err, w1) => w1.log (.stderr err)
          | (_, w1) => w1) := by
  rcases compileAndRun_returns env l hret name w with h | ⟨e, h⟩
  · rw [rangeLoop_cons_ok env l name names w h]
    rcases hc : l.compileAndRun env name w with ⟨r, w1⟩
    rw [hc] at h
    simp only at h
    subst h
    rfl
  · rw [rangeLoop_cons_err env l name names w e h]
    rcases hc : l.compileAndRun env name w with ⟨r, w1⟩
    rw [hc] at h
    simp only at h
    subst h
    rfl

/-- When plugin code returns, the loop over the names runs to its end and enters
`compileAndRun` once for every name, in order. -/
theorem rangeLoop_spec (env : Env) (l : loader)
    (hret : ∀ v object, (l.call env object v).1 = .ok () ∨ ∃ e, (l.call env object v).1 = .err e) :
    ∀ (names : List String) (w : World), ∃ w1 evs, rangeLoop env l names w = .ok w1 ∧
      w1.trace = w.trace ++ evs ∧ invocations evs = names
  | [], w => ⟨w, [], rfl, by simp, rfl⟩
  | name :: names, w => by
    obtain ⟨evs, ht, hi, _⟩ := compileAndRun_trace env l name w
    rcases compileAndRun_returns env l hret name w with h | ⟨e, h⟩
    · rw [rangeLoop_cons_ok env l name names w h]
      obtain ⟨w3, evs3, h3, ht3, hi3⟩ := rangeLoop_spec env l hret names (l.compileAndRun env name w).2
      refine ⟨w3, evs ++ evs3, h3, by rw [ht3, ht, List.append_assoc], ?_⟩
      rw [invocations_append, hi, hi3]; rfl
    · rw [rangeLoop_cons_err env l name names w e h]
      obtain ⟨w3, evs3, h3, ht3, hi3⟩ :=
        rangeLoop_spec env l hret names ((l.compileAndRun env name w).2.log (.stderr e))
      refine ⟨w3, evs ++ [.stderr e] ++ evs3, h3, ?_, ?_⟩
      · rw [ht3]; simp [World.log, ht]
      · rw [invocations_append, invocations_append, hi, hi3]; rfl

/-! ## Tracked files -/

theorem fileAt_putFile_self (files : List (String × Bytes)) (draws : Nat) (trace : List Event)
    (path : String) (data : Bytes) :
    fileAt ⟨putFile files path data, draws, trace⟩ path = some data := by
  simp [fileAt, putFile]

theorem fileAt_putFile_ne (files : List (String × Bytes)) (d1 d2 : Nat) (t1 t2 : List Event)
    (path other : String) (data : Bytes) (h : other ≠ path) :
    fileAt ⟨putFile files other data, d1, t1⟩ path = fileAt ⟨files, d2, t2⟩ path := by
  simp only [fileAt, putFile]
  rw [List.find?_cons_of_neg _ (by simpa using h)]
  congr 1
  induction files with
  | nil => rfl
  | cons f fs ih =>
    by_cases hf : f.1 = other
    · have hne : (f.1 == path) = false := by
        rw [hf]; simpa using h
      have hfo : (f.1 != other) = false := by simp [hf]
      have e1 : List.filter (fun f : String × Bytes => f.1 != other) (f :: fs) =
          List.filter (fun f : String × Bytes => f.1 != other) fs :=
        List.filter_cons_of_neg (by simp [hfo])
      rw [e1, List.find?_cons, hne]
      exact ih
    · have hfo : (f.1 != other) = true := by simpa using hf
      have e1 : List.filter (fun f : String × Bytes => f.1 != other) (f :: fs) =
          f :: List.filter (fun f : String × Bytes => f.1 != other) fs :=
        List.filter_cons_of_pos hfo
      rw [e1, List.find?_cons, List.find?_cons]
      cases (f.1 == path)
      · exact ih
      · rfl

/-- After `os.Remove(name)` no file `name` is left. -/
theorem fileAt_osRemove (name : String) (w : World) : fileAt (osRemove name w) name = none := by
  simp only [fileAt, osRemove, Option.map_eq_none', List.find?_eq_none]
  intro f hf
  have := (List.mem_filter.mp hf).2
  simpa using this

/-! ## `plugins` -/

/-- The loop of `plugins` appends the names with extension `.go`, in order. -/
theorem appendGoFiles_eq (names res : List String) :
    appendGoFiles names res = res ++ names.filter (fun n => decide (Ext n = ".go")) := by
  induction names generalizing res with
  | nil => simp [appendGoFiles]
  | cons n ns ih =>
    by_cases h : Ext n = ".go"
    · simp [appendGoFiles, h, ih]
    · simp [appendGoFiles, h, ih]

/-- Scanning backwards over characters that are neither a dot nor a separator. -/
theorem extScan_skip (mid : List Char) (rest suffix : List Char)
    (h : ∀ c ∈ mid, isPathSeparator c = false ∧ c ≠ '.') :
    extScan (mid ++ rest) suffix = extScan rest (mid.reverse ++ suffix) := by
  induction mid generalizing suffix with
  | nil => rfl
  | cons c cs ih =>
    have hc := h c (List.mem_cons_self _ _)
    have hcs : ∀ x ∈ cs, isPathSeparator x = false ∧ x ≠ '.' :=
      fun x hx => h x (List.mem_cons_of_mem _ hx)
    simp [extScan, hc.1, hc.2, ih (c :: suffix) hcs]

/-- The result of the scan is empty or a dot followed by characters without dot. -/
theorem extScan_shape (rev suffix : List Char) :
    extScan rev suffix = [] ∨
      ∃ mid rest, rev = mid ++ '.' :: rest ∧ extScan rev suffix = '.' :: (mid.reverse ++ suffix) := by
  induction rev generalizing suffix with
  | nil => exact Or.inl rfl
  | cons c cs ih =>
    by_cases hs : isPathSeparator c = true
    · exact Or.inl (by simp [extScan, hs])
    · by_cases hd : c = '.'
      · exact Or.inr ⟨[], cs, by simp [hd], by simp [extScan, hd, isPathSeparator]⟩
      · have hstep : extScan (c :: cs) suffix = extScan cs (c :: suffix) := by
          simp [extScan, hs, hd]
        rcases ih (c :: suffix) with h | ⟨mid, rest, hrev, hres⟩
        · exact Or.inl (by rw [hstep, h])
        · exact Or.inr ⟨c :: mid, rest, by simp [hrev], by rw [hstep, hres]; simp⟩

/-- The extension of a name is `.go` exactly when the name ends in `.go`. -/
theorem Ext_eq_go_iff (name : String) :
    Ext name = ".go" ↔ ['.', 'g', 'o'] <:+ name.data := by
  constructor
  · intro h
    have h1 : extScan name.data.reverse [] = ['.', 'g', 'o'] := by
      have := congrArg String.data h
      simpa [Ext] using this
    rcases extScan_shape name.data.reverse [] with h2 | ⟨mid, rest, hrev, hres⟩
    · rw [h2] at h1; exact absurd h1 (by simp)
    · rw [hres] at h1
      have hmid : mid.reverse = ['g', 'o'] := by simpa using h1
      have hmid2 : mid = ['o', 'g'] := by
        have := congrArg List.reverse hmid
        simpa using this
      subst hmid2
      refine ⟨rest.reverse, ?_⟩
      have := congrArg List.reverse hrev
      simpa using this.symm
  · rintro ⟨pre, hpre⟩
    apply String.ext
    have hrev : name.data.reverse = ['o', 'g'] ++ '.' :: pre.reverse := by
      rw [← hpre]; simp
    show extScan name.data.reverse [] = ['.', 'g', 'o']
    rw [hrev, extScan_skip ['o', 'g'] _ [] (by decide)]
    simp [extScan, isPathSeparator]

/-! ## The poll loop -/

/-- One iteration of the poll loop when plugin code returns: unless `plugins` ends the
process, the loop over the names runs to its end and the next iteration follows. -/
theorem pollLoop_succ (env : Env) (l : loader)
    (hret : ∀ v object, (l.call env object v).1 = .ok () ∨ ∃ e, (l.call env object v).1 = .err e)
    (fuel : Nat) (w : World) (names : List String) (hp : l.plugins env w = .ok names) :
    ∃ w1, rangeLoop env l names w = .ok w1 ∧ pollLoop env l (fuel + 1) w = pollLoop env l fuel w1 := by
  obtain ⟨w1, _, h1, _⟩ := rangeLoop_spec env l hret names w
  refine ⟨w1, h1, ?_⟩
  rw [pollLoop, hp]
  simp only [h1]

/-- When plugin code returns, the poll loop is left only through `log.Fatal` in `plugins`,
with exit code 1. -/
theorem pollLoop_cases (env : Env) (l : loader)
    (hret : ∀ v object, (l.call env object v).1 = .ok () ∨ ∃ e, (l.call env object v).1 = .err e) :
    ∀ (fuel : Nat) (w : World), (∃ w1, pollLoop env l fuel w = .running w1) ∨
      ∃ w1 e, pollLoop env l fuel w = .exited 1 (w1.log (.logFatal e)) ∧ l.plugins env w1 = .error e
  | 0, w => Or.inl ⟨w, rfl⟩
  | fuel + 1, w => by
    cases hp : l.plugins env w with
    | error e =>
      refine Or.inr ⟨w, e, ?_, hp⟩
      rw [pollLoop, hp]
    | ok names =>
      obtain ⟨w1, _, h2⟩ := pollLoop_succ env l hret fuel w names hp
      rw [h2]
      exact pollLoop_cases env l hret fuel w1

/-- While plugin code returns and every listing of the plugin directory succeeds the poll
loop keeps running. -/
theorem pollLoop_running (env : Env) (l : loader)
    (hret : ∀ v object, (l.call env object v).1 = .ok () ∨ ∃ e, (l.call env object v).1 = .err e)
    (hp : ∀ w, ∃ names, l.plugins env w = .ok names) :
    ∀ (fuel : Nat) (w : World), ∃ w1, pollLoop env l fuel w = .running w1
  | 0, w => ⟨w, rfl⟩
  | fuel + 1, w => by
    obtain ⟨names, hn⟩ := hp w
    obtain ⟨w1, _, h2⟩ := pollLoop_succ env l hret fuel w names hn
    rw [h2]
    exact pollLoop_running env l hret hp fuel w1

/-- Among the first `2^63 + 1` values of `rand.Int()` two are equal, whatever the
random source. -/
theorem draws_collide (env : Env) :
    ∃ i j, i < j ∧ j ≤ 2 ^ 63 ∧ env.Int63 i % 2 ^ 63 = env.Int63 j % 2 ^ 63 := by
  have hcard : (Finset.range (2 ^ 63)).card < (Finset.range (2 ^ 63 + 1)).card := by
    rw [Finset.card_range, Finset.card_range]
    exact Nat.lt_succ_self _
  have hmaps : ∀ i ∈ Finset.range (2 ^ 63 + 1),
      (fun i => env.Int63 i % 2 ^ 63) i ∈ Finset.range (2 ^ 63) := by
    intro i _
    exact Finset.mem_range.mpr (Nat.mod_lt _ (Nat.pos_pow_of_pos 63 (by decide)))
  obtain ⟨i, hi, j, hj, hne, heq⟩ := Finset.exists_ne_map_eq_of_card_lt_of_maps_to hcard hmaps
  have hi2 : i ≤ 2 ^ 63 := Nat.lt_succ_iff.mp (Finset.mem_range.mp hi)
  have hj2 : j ≤ 2 ^ 63 := Nat.lt_succ_iff.mp (Finset.mem_range.mp hj)
  rcases Nat.lt_or_gt_of_ne hne with h | h
  · exact ⟨i, j, h, hj2, heq⟩
  · exact ⟨j, i, h, hi2, heq.symm⟩

/-- A panic or exit of `compileAndRun` comes from plugin code inside `call`. -/
theorem compileAndRun_abort_inv (env : Env) (l : loader) (name : String) (w : World) :
    (∀ msg, (l.compileAndRun env name w).1 = .panic msg →
      ∃ obj v, (l.call env obj v).1 = .panic msg) ∧
    (∀ code, (l.compileAndRun env name w).1 = .exit code →
      ∃ obj v, (l.call env obj v).1 = .exit code) := by
  rcases hc : l.compile env name (w.log (.compileAndRun name)) with ⟨r, w1⟩
  cases r with
  | panic msg =>
    have := compile_no_panic env l name (w.log (.compileAndRun name)) msg
    rw [hc] at this
    exact absurd rfl this
  | exit code =>
    have := compile_no_exit env l name (w.log (.compileAndRun name)) code
    rw [hc] at this
    exact absurd rfl this
  | err e =>
    rw [compileAndRun_err env l name w e w1 hc]
    constructor <;> intro x h <;> cases h
  | ok obj =>
    rw [compileAndRun_ok env l name w obj w1 hc]
    constructor
    · intro msg h
      refine ⟨obj, w1, ?_⟩
      cases hcall : (l.call env obj w1).1 with
      | ok u => rw [hcall] at h; cases h
      | err e => rw [hcall] at h; cases h
      | exit code => rw [hcall] at h; cases h
      | panic m =>
        rw [hcall] at h
        simp only at h
        rw [← h]
    · intro code h
      refine ⟨obj, w1, ?_⟩
      cases hcall : (l.call env obj w1).1 with
      | ok u => rw [hcall] at h; cases h
      | err e => rw [hcall] at h; cases h
      | panic m => rw [hcall] at h; cases h
      | exit c =>
        rw [hcall] at h
        simp only at h
        rw [← h]

/-- The loop over the names is left early only by a panic or exit of plugin code. -/
theorem rangeLoop_abort_inv (env : Env) (l : loader) :
    ∀ (names : List String) (w : World) (a : Abort) (w1 : World),
      rangeLoop env l names w = .error (a, w1) →
        (∀ msg, a = .panic msg → ∃ obj v, (l.call env obj v).1 = .panic msg) ∧
        (∀ code, a = .exit code → ∃ obj v, (l.call env obj v).1 = .exit code)
  | [], w, a, w1, h => by cases h
  | name :: names, w, a, w1, h => by
    obtain ⟨hpanic, hexit⟩ := compileAndRun_abort_inv env l name w
    rw [rangeLoop] at h
    rcases hc : l.compileAndRun env name w with ⟨r, w2⟩
    rw [hc] at h hpanic hexit
    cases r with
    | ok u => exact rangeLoop_abort_inv env l names _ a w1 h
    | err e => exact rangeLoop_abort_inv env l names _ a w1 h
    | panic msg =>
      simp only [Except.error.injEq, Prod.mk.injEq] at h
      obtain ⟨ha, _⟩ := h
      subst ha
      refine ⟨?_, ?_⟩
      · intro m hm
        cases hm
        exact hpanic msg rfl
      · intro c hm
        cases hm
    | exit code =>
      simp only [Except.error.injEq, Prod.mk.injEq] at h
      obtain ⟨ha, _⟩ := h
      subst ha
      refine ⟨?_, ?_⟩
      · intro m hm
        cases hm
      · intro c hm
        cases hm
        exact hexit code rfl

/-- Every way in which the poll loop ends the process: `log.Fatal` in `plugins` with code 1,
a panic of plugin code with code 2, or `os.Exit(code)` in plugin code. -/
theorem pollLoop_exit_paths (env : Env) (l : loader) :
    ∀ (fuel : Nat) (w : World) (code : Nat) (w1 : World),
      pollLoop env l fuel w = .exited code w1 →
        (code = 1 ∧ ∃ v e, l.plugins env v = .error e ∧ w1 = v.log (.logFatal e)) ∨
        (code = 2 ∧ ∃ obj v msg, (l.call env obj v).1 = .panic msg) ∨
        (∃ obj v, (l.call env obj v).1 = .exit code)
  | 0, w, code, w1, h => by cases h
  | fuel + 1, w, code, w1, h => by
    rw [pollLoop] at h
    cases hp : l.plugins env w with
    | error e =>
      rw [hp] at h
      simp only [Status.exited.injEq] at h
      exact Or.inl ⟨h.1.symm, w, e, hp, h.2.symm⟩
    | ok names =>
      rw [hp] at h
      simp only at h
      cases hr : rangeLoop env l names w with
      | ok w2 =>
        rw [hr] at h
        exact pollLoop_exit_paths env l fuel w2 code w1 h
      | error aw =>
        obtain ⟨a, w2⟩ := aw
        obtain ⟨hpanic, hexit⟩ := rangeLoop_abort_inv env l names w a w2 hr
        rw [hr] at h
        cases a with
        | panic msg =>
          simp only [Status.exited.injEq] at h
          obtain ⟨obj, v, hv⟩ := hpanic msg rfl
          exact Or.inr (Or.inl ⟨h.1.symm, obj, v, msg, hv⟩)
        | exit c =>
          simp only [Status.exited.injEq] at h
          obtain ⟨obj, v, hv⟩ := hexit c rfl
          exact Or.inr (Or.inr ⟨obj, v, by rw [← h.1]; exact hv⟩)

/-! ## The claims of the specification -/

/-- C1. In one poll iteration of `main`, for every list `names` returned by
`plugins()` and for every combination of outcomes of the files (compile error,
load or run error, success; plugin code returns), the iteration runs the loop
over the names to its end and `compileAndRun` is entered on every name of the
list, in list order, exactly once.  An error returned by `compileAndRun` is only
printed: the loop goes on with the remaining names, and the next poll iteration
follows: it lists the directory again and attempts every name of that listing. -/
theorem every_name_attempted (env : Env) (l : loader) (w : World) (names : List String)
    (hp : l.plugins env w = .ok names)
    (hret : ∀ v object, (l.call env object v).1 = .ok () ∨ ∃ e, (l.call env object v).1 = .err e) :
    ∃ w1, rangeLoop env l names w = .ok w1 ∧
      invocations w1.trace = invocations w.trace ++ names ∧
      pollLoop env l 1 w = .running w1 ∧
      (newLoader env w = .ok l → main env 1 w = .running w1) ∧
      (∀ fuel, pollLoop env l (fuel + 1) w = pollLoop env l fuel w1) ∧
      (∀ e, l.plugins env w1 = .error e →
        pollLoop env l 2 w = .exited 1 (w1.log (.logFatal e))) ∧
      (∀ names2, l.plugins env w1 = .ok names2 →
        ∃ w2, rangeLoop env l names2 w1 = .ok w2 ∧ pollLoop env l 2 w = .running w2 ∧
          invocations w2.trace = invocations w.trace ++ names ++ names2) ∧
      ∀ (name : String) (rest : List String) (v : World),
        rangeLoop env l (name :: rest) v =
          rangeLoop env l rest
            (match l.compileAndRun env name v with
              | (.err err, v1) => v1.log (.stderr err)
              | (_, v1) => v1) := by
  obtain ⟨w1, evs, h1, ht, hi⟩ := rangeLoop_spec env l hret names w
  have hone : pollLoop env l 1 w = .running w1 := by
    rw [pollLoop, hp]
    simp only [h1]
    rfl
  have hstep : ∀ fuel, pollLoop env l (fuel + 1) w = pollLoop env l fuel w1 := by
    intro fuel
    rw [pollLoop, hp]
    simp only [h1]
  have hinv : invocations w1.trace = invocations w.trace ++ names := by
    rw [ht, invocations_append, hi]
  refine ⟨w1, h1, hinv, hone, ?_, hstep, ?_, ?_,
    fun name rest v => rangeLoop_cons env l hret name rest v⟩
  · intro hl
    simp [main, hl, hone]
  · intro e he
    rw [hstep 1, pollLoop, he]
  · intro names2 hp2
    obtain ⟨w2, evs2, h2, ht2, hi2⟩ := rangeLoop_spec env l hret names2 w1
    refine ⟨w2, h2, ?_, ?_⟩
    · rw [hstep 1, pollLoop, hp2]
      simp only [h2]
      rfl
    · rw [ht2, invocations_append, hi2, hinv]

/-- C1, instance: a listing in which the first file fails in `Run`, the second does
not build and the third cannot be read; all three are attempted, in order, and
again in the second poll iteration. -/
theorem every_name_attempted_witness :
    demoLoader.plugins demoEnv startWorld = .ok ["a.go", "b.go", "c.go"] ∧
    (∀ v object, (demoLoader.call demoEnv object v).1 = .ok () ∨
      ∃ e, (demoLoader.call demoEnv object v).1 = .err e) ∧
    (∃ w1, pollLoop demoEnv demoLoader 1 startWorld = .running w1 ∧
      invocations w1.trace = ["a.go", "b.go", "c.go"]) ∧
    (match pollLoop demoEnv demoLoader 1 startWorld with
      | .running v => printed v.trace
      | .exited _ v => printed v.trace) =
        ["could not run /tmp/objs/7.so: plugin failed with error boom",
          "could not compile b.go: could not compile 8.go: exit status 2",
          "could not compile c.go: could not read c.go: open /work/plugins/c.go: no such file or directory"] ∧
    (∃ w2, pollLoop demoEnv demoLoader 2 startWorld = .running w2 ∧
      invocations w2.trace = ["a.go", "b.go", "c.go", "a.go", "b.go", "c.go"]) :=
  ⟨rfl, fun _ _ => Or.inr ⟨"plugin failed with error boom", rfl⟩,
    match every_name_attempted demoEnv demoLoader startWorld ["a.go", "b.go", "c.go"] rfl
        (fun _ _ => Or.inr ⟨"plugin failed with error boom", rfl⟩) with
    | ⟨w1, _, h2, h3, _⟩ => ⟨w1, h3, h2⟩,
    rfl,
    match every_name_attempted demoEnv demoLoader startWorld ["a.go", "b.go", "c.go"] rfl
        (fun _ _ => Or.inr ⟨"plugin failed with error boom", rfl⟩) with
    | ⟨_, _, _, _, _, _, _, h7, _⟩ =>
      match h7 ["a.go", "b.go", "c.go"] rfl with
      | ⟨w2, _, hp2, hi2⟩ => ⟨w2, hp2, hi2⟩⟩

/-- C2. For every directory listing `names` that can be read, `plugins()` returns
exactly the sub-list of `names` whose extension, as `filepath.Ext` computes it,
equals `.go`: same relative order, same multiplicity, a name is in the result if
and only if it is in the listing and its extension is `.go`; these are the names
ending in `.go`. -/
theorem plugins_returns_go_files (env : Env) (l : loader) (w : World) (names : List String)
    (hopen : env.Open w l.pluginsDir = none)
    (hread : env.Readdirnames w l.pluginsDir = .ok names) :
    l.plugins env w = .ok (names.filter (fun n => decide (Ext n = ".go"))) ∧
    (names.filter (fun n => decide (Ext n = ".go"))).Sublist names ∧
    (∀ n, n ∈ names.filter (fun n => decide (Ext n = ".go")) ↔ n ∈ names ∧ Ext n = ".go") ∧
    (∀ n, Ext n = ".go" →
      (names.filter (fun n => decide (Ext n = ".go"))).count n = names.count n) ∧
    (∀ n, Ext n = ".go" ↔ ['.', 'g', 'o'] <:+ n.data) := by
  refine ⟨?_, List.filter_sublist _, ?_, ?_, Ext_eq_go_iff⟩
  · simp [loader.plugins, hopen, hread, appendGoFiles_eq]
  · intro n
    simp [List.mem_filter]
  · intro n hn
    exact List.count_filter (by simpa using hn)

/-- C2, instance: of the entries `a.go`, `README.md`, `b.go`, `c.go` the three
source files are returned in directory order. -/
theorem plugins_returns_go_files_witness :
    demoEnv.Open startWorld demoLoader.pluginsDir = none ∧
    demoEnv.Readdirnames startWorld demoLoader.pluginsDir =
      .ok ["a.go", "README.md", "b.go", "c.go"] ∧
    demoLoader.plugins demoEnv startWorld = .ok ["a.go", "b.go", "c.go"] :=
  ⟨rfl, rfl,
    (plugins_returns_go_files demoEnv demoLoader startWorld ["a.go", "README.md", "b.go", "c.go"]
      rfl rfl).1⟩

/-- C3, at the failing input.  The plugin compiled from `a.go` re-seeds the shared
random source in its `Run`.  Two calls `compileAndRun("a.go")` in one process
then both draw 7 although the source itself never repeats a value: each `compile`
writes the source copy `/tmp/objs/7.go` and returns the artifact path
`/tmp/objs/7.so`, so the names are not different each time. -/
theorem reseeded_source_reuses_name :
    (∀ i j, (envOpening pluginReseeding).Int63 i = (envOpening pluginReseeding).Int63 j → i = j) ∧
    (demoLoader.compile (envOpening pluginReseeding) "a.go"
      (startWorld.log (.compileAndRun "a.go"))).1 = .ok "/tmp/objs/7.so" ∧
    (demoLoader.compile (envOpening pluginReseeding) "a.go"
      ((demoLoader.compileAndRun (envOpening pluginReseeding) "a.go" startWorld).2.log
        (.compileAndRun "a.go"))).1 = .ok "/tmp/objs/7.so" ∧
    (demoLoader.compileAndRun (envOpening pluginReseeding) "a.go"
      (demoLoader.compileAndRun (envOpening pluginReseeding) "a.go" startWorld).2).2.trace =
      [.compileAndRun "a.go", .readFile "/work/plugins/a.go", .writeFile "/tmp/objs/7.go",
        .goBuild "/tmp/objs/7.so" "/tmp/objs/7.go", .pluginOpen "/tmp/objs/7.so",
        .runFunc "/tmp/objs/7.so", .remove "/tmp/objs/7.so",
        .compileAndRun "a.go", .readFile "/work/plugins/a.go", .writeFile "/tmp/objs/7.go",
        .goBuild "/tmp/objs/7.so" "/tmp/objs/7.go", .pluginOpen "/tmp/objs/7.so",
        .runFunc "/tmp/objs/7.so", .remove "/tmp/objs/7.so"] := by
  refine ⟨?_, rfl, rfl, rfl⟩
  intro i j h
  have h2 : 7 + i = 7 + j := h
  omega

/-- Two successful invocations of `compile` in the same process write the source
copies `objectsDir/n1.go`, `objectsDir/n2.go` and return the artifact paths
`objectsDir/n1.so`, `objectsDir/n2.so` for the integers `n1`, `n2` they draw; the
paths coincide exactly when the draws coincide, and nothing in `compile` keeps
two draws apart. -/
theorem compile_paths_differ_iff_draws_differ (env : Env) (l : loader) (name1 name2 : String)
    (w1 w2 : World) (obj1 obj2 : String) (v1 v2 : World)
    (h1 : l.compile env name1 w1 = (.ok obj1, v1))
    (h2 : l.compile env name2 w2 = (.ok obj2, v2)) :
    obj1 = Join l.objectsDir (Nat.repr (env.Int63 w1.draws % 2 ^ 63) ++ ".so") ∧
    obj2 = Join l.objectsDir (Nat.repr (env.Int63 w2.draws % 2 ^ 63) ++ ".so") ∧
    Event.writeFile (Join l.objectsDir (Nat.repr (env.Int63 w1.draws % 2 ^ 63) ++ ".go")) ∈ v1.trace ∧
    Event.writeFile (Join l.objectsDir (Nat.repr (env.Int63 w2.draws % 2 ^ 63) ++ ".go")) ∈ v2.trace ∧
    (obj1 ≠ obj2 ↔ env.Int63 w1.draws % 2 ^ 63 ≠ env.Int63 w2.draws % 2 ^ 63) ∧
    (Join l.objectsDir (Nat.repr (env.Int63 w1.draws % 2 ^ 63) ++ ".go") ≠
        Join l.objectsDir (Nat.repr (env.Int63 w2.draws % 2 ^ 63) ++ ".go") ↔
      env.Int63 w1.draws % 2 ^ 63 ≠ env.Int63 w2.draws % 2 ^ 63) := by
  obtain ⟨_, _, _, ho1, hv1⟩ := compile_ok_inv env l name1 w1 obj1 v1 h1
  obtain ⟨_, _, _, ho2, hv2⟩ := compile_ok_inv env l name2 w2 obj2 v2 h2
  refine ⟨ho1, ho2, by rw [hv1]; simp, by rw [hv2]; simp, ?_, ?_⟩
  · rw [ho1, ho2]
    exact not_congr (Join_repr_inj l.objectsDir _ _ ".so" ext_so_no_sep)
  · exact not_congr (Join_repr_inj l.objectsDir _ _ ".go" ext_go_no_sep)

/-- C4. For every source name for which `compile` succeeds and returns the artifact
path `obj`, the file `obj` exists after `compile` and is no longer present when
`compileAndRun` returns, whatever the outcome of `call(obj)` was: the deferred
`os.Remove(obj)` is the last thing `compileAndRun` does, after a nil result, after
an error and also while a panic of the plugin unwinds.  Only when plugin code
ends the process inside `call` is there no return and no removal. -/
theorem compileAndRun_removes_artifact (env : Env) (l : loader) (name : String) (w : World)
    (obj : String) (w1 : World)
    (hc : l.compile env name (w.log (.compileAndRun name)) = (.ok obj, w1)) :
    (fileAt w1 obj).isSome = true ∧
    ((∀ code, (l.call env obj w1).1 ≠ .exit code) →
      fileAt (l.compileAndRun env name w).2 obj = none ∧
        (l.compileAndRun env name w).2.trace.getLast? = some (.remove obj)) ∧
    ((l.call env obj w1).1 = .ok () →
      (l.compileAndRun env name w).1 = .ok () ∧
        fileAt (l.compileAndRun env name w).2 obj = none ∧
        (l.compileAndRun env name w).2.trace.getLast? = some (.remove obj)) ∧
    (∀ e, (l.call env obj w1).1 = .err e →
      (l.compileAndRun env name w).1 = .err ("could not run " ++ obj ++ ": " ++ e) ∧
        fileAt (l.compileAndRun env name w).2 obj = none ∧
        (l.compileAndRun env name w).2.trace.getLast? = some (.remove obj)) ∧
    (∀ msg, (l.call env obj w1).1 = .panic msg →
      (l.compileAndRun env name w).1 = .panic msg ∧
        fileAt (l.compileAndRun env name w).2 obj = none ∧
        (l.compileAndRun env name w).2.trace.getLast? = some (.remove obj)) ∧
    (∀ code, (l.call env obj w1).1 = .exit code →
      l.compileAndRun env name w = (.exit code, (l.call env obj w1).2)) := by
  obtain ⟨f, object, _, ho, hw1⟩ := compile_ok_inv env l name _ obj w1 hc
  have hcr := compileAndRun_ok env l name w obj w1 hc
  have hlast : (osRemove obj (l.call env obj w1).2).trace.getLast? = some (.remove obj) := by
    simp [osRemove]
  have hgone := fileAt_osRemove obj (l.call env obj w1).2
  refine ⟨?_, ?_, ?_, ?_, ?_, ?_⟩
  · rw [hw1, ← ho, fileAt_putFile_self]
    rfl
  · intro hne
    rw [hcr]
    cases hcall : (l.call env obj w1).1 with
    | ok u => exact ⟨hgone, hlast⟩
    | err e => exact ⟨hgone, hlast⟩
    | panic msg => exact ⟨hgone, hlast⟩
    | exit code => exact absurd hcall (hne code)
  · intro h
    rw [hcr, h]
    exact ⟨rfl, hgone, hlast⟩
  · intro e h
    rw [hcr, h]
    exact ⟨rfl, hgone, hlast⟩
  · intro msg h
    rw [hcr, h]
    exact ⟨rfl, hgone, hlast⟩
  · intro code h
    rw [hcr, h]

/-- C4, instance: the artifact `/tmp/objs/7.so` of `a.go`, whose `Run` fails. -/
theorem compileAndRun_removes_artifact_witness :
    demoLoader.compile demoEnv "a.go" (startWorld.log (.compileAndRun "a.go")) =
      (.ok "/tmp/objs/7.so",
        (demoLoader.compile demoEnv "a.go" (startWorld.log (.compileAndRun "a.go"))).2) ∧
    (demoLoader.call demoEnv "/tmp/objs/7.so"
      (demoLoader.compile demoEnv "a.go" (startWorld.log (.compileAndRun "a.go"))).2).1 =
        .err "plugin failed with error boom" ∧
    (demoLoader.compileAndRun demoEnv "a.go" startWorld).1 =
        .err ("could not run " ++ "/tmp/objs/7.so" ++ ": " ++ "plugin failed with error boom") ∧
      fileAt (demoLoader.compileAndRun demoEnv "a.go" startWorld).2 "/tmp/objs/7.so" = none ∧
      (demoLoader.compileAndRun demoEnv "a.go" startWorld).2.trace.getLast? =
        some (.remove "/tmp/objs/7.so") :=
  ⟨rfl, rfl,
    (compileAndRun_removes_artifact demoEnv demoLoader "a.go" startWorld "/tmp/objs/7.so"
      (demoLoader.compile demoEnv "a.go" (startWorld.log (.compileAndRun "a.go"))).2 rfl).2.2.2.1
      "plugin failed with error boom" rfl⟩

/-- C5. The function `call(object)` classifies a module by its first failing stage, in the
order open, lookup, signature, run, and returns an error in each case: a module
that cannot be opened gives the open error; one that opens but exports no symbol
`Run` gives "could not find Run function"; one whose `Run` is not of type
`func() error` gives "found Run but type is ... instead of func() error", and
nothing is invoked; one whose `Run` has the right type is invoked once and a
non-nil result is wrapped.  It returns nil if and only if the module opens, exports
`Run`, `Run` has type `func() error`, and invoking it returns nil.  `call` itself
never panics or exits: it does so only where the plugin's own code does. -/
theorem call_classifies (env : Env) (l : loader) (object : String) (w : World) :
    (∀ e, env.PluginOpen w object = .err e →
      l.call env object w =
        (.err ("could not open " ++ object ++ ": " ++ e), w.log (.pluginOpen object))) ∧
    (∀ p e, env.PluginOpen w object = .ok p → p.Lookup "Run" = .error e →
      l.call env object w =
        (.err ("could not find Run function: " ++ e), w.log (.pluginOpen object))) ∧
    (∀ p t, env.PluginOpen w object = .ok p → p.Lookup "Run" = .ok (.other t) →
      l.call env object w =
        (.err ("found Run but type is " ++ t ++ " instead of func() error"),
          w.log (.pluginOpen object))) ∧
    (∀ p run, env.PluginOpen w object = .ok p → p.Lookup "Run" = .ok (.funcError run) →
      l.call env object w =
        ((match (run (w.log (.pluginOpen object))).2 with
          | .ok _ => Res.ok ()
          | .err e => Res.err ("plugin failed with error " ++ e)
          | .panic msg => Res.panic msg
          | .exit code => Res.exit code),
          ⟨(run (w.log (.pluginOpen object))).1.files, (run (w.log (.pluginOpen object))).1.draws,
            w.trace ++ [.pluginOpen object, .runFunc object]⟩)) ∧
    ((l.call env object w).1 = .ok () ↔
      ∃ p run, env.PluginOpen w object = .ok p ∧ p.Lookup "Run" = .ok (.funcError run) ∧
        (run (w.log (.pluginOpen object))).2 = .ok ()) ∧
    (∀ msg, (l.call env object w).1 = .panic msg ↔
      env.PluginOpen w object = .panic msg ∨
        ∃ p run, env.PluginOpen w object = .ok p ∧ p.Lookup "Run" = .ok (.funcError run) ∧
          (run (w.log (.pluginOpen object))).2 = .panic msg) ∧
    (∀ code, (l.call env object w).1 = .exit code ↔
      env.PluginOpen w object = .exit code ∨
        ∃ p run, env.PluginOpen w object = .ok p ∧ p.Lookup "Run" = .ok (.funcError run) ∧
          (run (w.log (.pluginOpen object))).2 = .exit code) := by
  have h1 : ∀ e, env.PluginOpen w object = .err e →
      l.call env object w =
        (.err ("could not open " ++ object ++ ": " ++ e), w.log (.pluginOpen object)) := by
    intro e ho
    simp [loader.call, ho]
  have h2 : ∀ p e, env.PluginOpen w object = .ok p → p.Lookup "Run" = .error e →
      l.call env object w =
        (.err ("could not find Run function: " ++ e), w.log (.pluginOpen object)) := by
    intro p e ho hl
    simp [loader.call, ho, hl]
  have h3 : ∀ p t, env.PluginOpen w object = .ok p → p.Lookup "Run" = .ok (.other t) →
      l.call env object w =
        (.err ("found Run but type is " ++ t ++ " instead of func() error"),
          w.log (.pluginOpen object)) := by
    intro p t ho hl
    simp [loader.call, ho, hl]
  have h4 := fun p run ho hl => call_run env l object w p run ho hl
  have h5 : ∀ msg, env.PluginOpen w object = .panic msg →
      l.call env object w = (.panic msg, w.log (.pluginOpen object)) := by
    intro msg ho
    simp [loader.call, ho]
  have h6 : ∀ code, env.PluginOpen w object = .exit code →
      l.call env object w = (.exit code, w.log (.pluginOpen object)) := by
    intro code ho
    simp [loader.call, ho]
  refine ⟨h1, h2, h3, h4, ?_, ?_, ?_⟩
  · cases ho : env.PluginOpen w object with
    | err e => simp [h1 e ho]
    | panic msg => simp [h5 msg ho]
    | exit code => simp [h6 code ho]
    | ok p =>
      cases hl : p.Lookup "Run" with
      | error e => simp [h2 p e ho hl, hl]
      | ok sym =>
        cases sym with
        | other t => simp [h3 p t ho hl, hl]
        | funcError run =>
          rw [h4 p run ho hl]
          cases hr : (run (w.log (.pluginOpen object))).2 <;> simp [hl, hr]
  · intro msg
    cases ho : env.PluginOpen w object with
    | err e => simp [h1 e ho]
    | panic m => simp [h5 m ho]
    | exit code => simp [h6 code ho]
    | ok p =>
      cases hl : p.Lookup "Run" with
      | error e => simp [h2 p e ho hl, hl]
      | ok sym =>
        cases sym with
        | other t => simp [h3 p t ho hl, hl]
        | funcError run =>
          rw [h4 p run ho hl]
          cases hr : (run (w.log (.pluginOpen object))).2 <;> simp [hl, hr]
  · intro code
    cases ho : env.PluginOpen w object with
    | err e => simp [h1 e ho]
    | panic m => simp [h5 m ho]
    | exit c => simp [h6 c ho]
    | ok p =>
      cases hl : p.Lookup "Run" with
      | error e => simp [h2 p e ho hl, hl]
      | ok sym =>
        cases sym with
        | other t => simp [h3 p t ho hl, hl]
        | funcError run =>
          rw [h4 p run ho hl]
          cases hr : (run (w.log (.pluginOpen object))).2 <;> simp [hl, hr]

/-- C5, instances: a file that is no plugin, a plugin without `Run`, a plugin whose
`Run` has type `func(int) error`, a `Run` that fails and a `Run` that succeeds. -/
theorem call_classifies_witness :
    (demoLoader.call envNotOpening "/tmp/objs/7.so" startWorld).1 =
      .err "could not open /tmp/objs/7.so: plugin.Open(/tmp/objs/7.so): not a plugin" ∧
    (demoLoader.call (envOpening pluginWithoutRun) "/tmp/objs/7.so" startWorld).1 =
      .err "could not find Run function: plugin: symbol Run not found" ∧
    demoLoader.call (envOpening pluginWrongType) "/tmp/objs/7.so" startWorld =
      (.err "found Run but type is func(int) error instead of func() error",
        startWorld.log (.pluginOpen "/tmp/objs/7.so")) ∧
    (demoLoader.call (envOpening (pluginReturning (.err "boom"))) "/tmp/objs/7.so" startWorld).1 =
      .err "plugin failed with error boom" ∧
    (demoLoader.call (envOpening (pluginReturning (.ok ()))) "/tmp/objs/7.so" startWorld).1 =
      .ok () :=
  ⟨congrArg Prod.fst
      ((call_classifies envNotOpening demoLoader "/tmp/objs/7.so" startWorld).1
        "plugin.Open(/tmp/objs/7.so): not a plugin" rfl),
    congrArg Prod.fst
      ((call_classifies (envOpening pluginWithoutRun) demoLoader "/tmp/objs/7.so" startWorld).2.1
        pluginWithoutRun "plugin: symbol Run not found" rfl rfl),
    (call_classifies (envOpening pluginWrongType) demoLoader "/tmp/objs/7.so" startWorld).2.2.1
      pluginWrongType "func(int) error" rfl rfl,
    congrArg Prod.fst
      ((call_classifies (envOpening (pluginReturning (.err "boom"))) demoLoader "/tmp/objs/7.so"
        startWorld).2.2.2.1 (pluginReturning (.err "boom")) (fun v => (v, .err "boom"))
        rfl rfl),
    (call_classifies (envOpening (pluginReturning (.ok ()))) demoLoader "/tmp/objs/7.so"
      startWorld).2.2.2.2.1.mpr ⟨pluginReturning (.ok ()), fun v => (v, .ok ()), rfl, rfl, rfl⟩⟩

/-- C6. For every module whose `Run` has type `func() error` and returns a non-nil
error `e`, `call` returns a non-nil error whose message contains the message of
`e`, and the error that `compileAndRun` returns for that file, which is the text
`main` prints to standard error, contains it as well. -/
theorem run_error_surfaces (env : Env) (l : loader) (name : String) (w : World) (obj : String)
    (w1 : World) (p : Plugin) (run : World → World × Res Unit) (e : String)
    (hc : l.compile env name (w.log (.compileAndRun name)) = (.ok obj, w1))
    (ho : env.PluginOpen w1 obj = .ok p) (hl : p.Lookup "Run" = .ok (.funcError run))
    (hr : (run (w1.log (.pluginOpen obj))).2 = .err e) :
    (∀ (object : String) (v : World) (p2 : Plugin) (run2 : World → World × Res Unit)
        (e2 : String),
      env.PluginOpen v object = .ok p2 → p2.Lookup "Run" = .ok (.funcError run2) →
      (run2 (v.log (.pluginOpen object))).2 = .err e2 →
        (l.call env object v).1 = .err ("plugin failed with error " ++ e2) ∧
          Contains ("plugin failed with error " ++ e2) e2) ∧
    (l.call env obj w1).1 = .err ("plugin failed with error " ++ e) ∧
    (l.compileAndRun env name w).1 =
      .err ("could not run " ++ obj ++ ": " ++ ("plugin failed with error " ++ e)) ∧
    Contains ("could not run " ++ obj ++ ": " ++ ("plugin failed with error " ++ e)) e ∧
    ∀ rest, rangeLoop env l (name :: rest) w =
      rangeLoop env l rest
        ((l.compileAndRun env name w).2.log
          (.stderr ("could not run " ++ obj ++ ": " ++ ("plugin failed with error " ++ e)))) := by
  have hcall := call_run_error env l obj w1 p run e ho hl hr
  have hcr := compileAndRun_ok env l name w obj w1 hc
  rw [hcall] at hcr
  have h1 : (l.compileAndRun env name w).1 =
      .err ("could not run " ++ obj ++ ": " ++ ("plugin failed with error " ++ e)) := by
    rw [hcr]
  refine ⟨fun object v p2 run2 e2 ho2 hl2 hr2 =>
      ⟨call_run_error env l object v p2 run2 e2 ho2 hl2 hr2, contains_append_right _ _⟩,
    hcall, h1, ?_, ?_⟩
  · exact contains_trans _ _ _ (contains_append_right _ _) (contains_append_right _ _)
  · intro rest
    exact rangeLoop_cons_err env l name rest w _ h1

/-- C6, instance: `a.go`, whose `Run` returns the error "boom". -/
theorem run_error_surfaces_witness :
    demoLoader.compile demoEnv "a.go" (startWorld.log (.compileAndRun "a.go")) =
      (.ok "/tmp/objs/7.so",
        (demoLoader.compile demoEnv "a.go" (startWorld.log (.compileAndRun "a.go"))).2) ∧
    (demoLoader.compileAndRun demoEnv "a.go" startWorld).1 =
      .err "could not run /tmp/objs/7.so: plugin failed with error boom" ∧
    Contains "could not run /tmp/objs/7.so: plugin failed with error boom" "boom" :=
  ⟨rfl,
    (run_error_surfaces demoEnv demoLoader "a.go" startWorld "/tmp/objs/7.so"
      (demoLoader.compile demoEnv "a.go" (startWorld.log (.compileAndRun "a.go"))).2
      (pluginReturning (.err "boom")) (fun v => (v, .err "boom")) "boom"
      rfl rfl rfl rfl).2.2.1,
    (run_error_surfaces demoEnv demoLoader "a.go" startWorld "/tmp/objs/7.so"
      (demoLoader.compile demoEnv "a.go" (startWorld.log (.compileAndRun "a.go"))).2
      (pluginReturning (.err "boom")) (fun v => (v, .err "boom")) "boom"
      rfl rfl rfl rfl).2.2.2.1⟩

/-- C7. For every source file name `name`, if the compile stage fails (the source
cannot be read, the copy cannot be written, or the external compiler cannot be
started or exits non-zero), the error that `compileAndRun` returns and `main`
prints contains `name` as a substring, and neither `call` nor the removal of the
artifact is performed for that file. -/
theorem compile_failure_names_file (env : Env) (l : loader) (name : String) (w : World)
    (e : String) (w1 : World)
    (hc : l.compile env name (w.log (.compileAndRun name)) = (.err e, w1)) :
    l.compileAndRun env name w = (.err ("could not compile " ++ name ++ ": " ++ e), w1) ∧
    Contains ("could not compile " ++ name ++ ": " ++ e) name ∧
    (∀ rest, rangeLoop env l (name :: rest) w =
      rangeLoop env l rest (w1.log (.stderr ("could not compile " ++ name ++ ": " ++ e)))) ∧
    (∃ evs, w1.trace = w.trace ++ .compileAndRun name :: evs ∧
      ∀ ev ∈ evs, ev.isLoadOrRemove = false) ∧
    ((∃ e1, env.ReadFile (w.log (.compileAndRun name)) (Join l.pluginsDir name) = .error e1 ∧
        e = "could not read " ++ name ++ ": " ++ e1) ∨
      (∃ e1, e = "could not write " ++ (Nat.repr (env.Int63 w.draws % 2 ^ 63) ++ ".go") ++ ": " ++ e1) ∨
      (∃ e1, e = "could not compile " ++ (Nat.repr (env.Int63 w.draws % 2 ^ 63) ++ ".go") ++ ": " ++ e1)) := by
  have hcr := compileAndRun_err env l name w e w1 hc
  obtain ⟨hkind, evs, ht, _, _, hr⟩ := compile_err_inv env l name _ e w1 hc
  refine ⟨hcr, ?_, ?_, ⟨evs, ?_, fun ev hev => (hr ev hev).1⟩, hkind⟩
  · exact contains_trans _ _ _ (contains_append_left _ _)
      (contains_trans _ _ _ (contains_append_left _ _) (contains_append_right _ _))
  · intro rest
    have h := rangeLoop_cons_err env l name rest w _ (congrArg Prod.fst hcr)
    rw [hcr] at h
    exact h
  · rw [ht]
    simp [World.log]

/-- C7, instance: `b.go`, which the compiler rejects. -/
theorem compile_failure_names_file_witness :
    demoLoader.compile demoEnv "b.go" (startWorld.log (.compileAndRun "b.go")) =
      (.err "could not compile 7.go: exit status 2",
        (demoLoader.compile demoEnv "b.go" (startWorld.log (.compileAndRun "b.go"))).2) ∧
    (demoLoader.compileAndRun demoEnv "b.go" startWorld).1 =
      .err "could not compile b.go: could not compile 7.go: exit status 2" ∧
    Contains "could not compile b.go: could not compile 7.go: exit status 2" "b.go" :=
  ⟨rfl,
    congrArg Prod.fst (compile_failure_names_file demoEnv demoLoader "b.go" startWorld
      "could not compile 7.go: exit status 2"
      (demoLoader.compile demoEnv "b.go" (startWorld.log (.compileAndRun "b.go"))).2 rfl).1,
    (compile_failure_names_file demoEnv demoLoader "b.go" startWorld
      "could not compile 7.go: exit status 2"
      (demoLoader.compile demoEnv "b.go" (startWorld.log (.compileAndRun "b.go"))).2 rfl).2.1⟩

/-- C8. For every loader and source name for which `compile` succeeds, with `n` the
non-negative integer drawn in that call and `D` its decimal rendering: the file
`objectsDir/D.go` exists with the content read from `pluginsDir/name`, the
returned artifact path is exactly `objectsDir/D.so`, which is the written source
path with its final `.go` replaced by `.so`, and the slice
`srcPath[:len(srcPath)-3]` is within bounds; `compile` never panics.  The paths
are joined as `filepath.Join` does; for a clean `objectsDir` (as `ioutil.TempDir`
returns it) that is the directory, a slash and the file name. -/
theorem compile_success_paths (env : Env) (l : loader) (name : String) (w : World)
    (obj : String) (w1 : World) (hc : l.compile env name w = (.ok obj, w1)) :
    (∃ f, env.ReadFile w (Join l.pluginsDir name) = .ok f ∧
      fileAt w1 (Join l.objectsDir (Nat.repr (env.Int63 w.draws % 2 ^ 63) ++ ".go")) = some f) ∧
    obj = Join l.objectsDir (Nat.repr (env.Int63 w.draws % 2 ^ 63) ++ ".so") ∧
    (∃ base,
      sliceTo (Join l.objectsDir (Nat.repr (env.Int63 w.draws % 2 ^ 63) ++ ".go"))
          (((Join l.objectsDir (Nat.repr (env.Int63 w.draws % 2 ^ 63) ++ ".go")).length : Int) - 3) =
        some base ∧
      Join l.objectsDir (Nat.repr (env.Int63 w.draws % 2 ^ 63) ++ ".go") = base ++ ".go" ∧
      obj = base ++ ".so") ∧
    3 ≤ (Join l.objectsDir (Nat.repr (env.Int63 w.draws % 2 ^ 63) ++ ".go")).length ∧
    env.Int63 w.draws % 2 ^ 63 < 2 ^ 63 ∧
    (∀ (name2 : String) (w2 : World) (msg : String), (l.compile env name2 w2).1 ≠ .panic msg) ∧
    (Clean l.objectsDir = l.objectsDir → l.objectsDir ≠ "." → l.objectsDir ≠ "/" →
      Join l.objectsDir (Nat.repr (env.Int63 w.draws % 2 ^ 63) ++ ".go") =
          l.objectsDir ++ "/" ++ (Nat.repr (env.Int63 w.draws % 2 ^ 63) ++ ".go") ∧
        obj = l.objectsDir ++ "/" ++ (Nat.repr (env.Int63 w.draws % 2 ^ 63) ++ ".so")) := by
  obtain ⟨f, object, hr, ho, hw1⟩ := compile_ok_inv env l name w obj w1 hc
  refine ⟨⟨f, hr, ?_⟩, ho, ⟨_, sliceTo_srcPath _ _, ?_, ?_⟩, srcPath_length _ _,
    Nat.mod_lt _ (Nat.pos_pow_of_pos 63 (by decide)),
    fun name2 w2 msg => compile_no_panic env l name2 w2 msg, ?_⟩
  · rw [hw1]
    rw [fileAt_putFile_ne _ _ (w.draws + 1) _ [] _ _ _ (srcPath_ne_objectPath _ _ _).symm]
    exact fileAt_putFile_self _ _ _ _ _
  · rw [Join_repr _ _ ".go" ext_go_no_sep]
    apply String.ext
    simp
  · rw [ho, objectPath_eq]
  · intro hclean hdot hroot
    rw [ho, Join_repr _ _ ".go" ext_go_no_sep, Join_repr _ _ ".so" ext_so_no_sep,
      joinBase_of_clean _ hclean hdot hroot]
    exact ⟨rfl, rfl⟩

/-- C8, instance: `a.go` with content `[1, 2]` and the draw 7. -/
theorem compile_success_paths_witness :
    demoLoader.compile demoEnv "a.go" startWorld =
      (.ok "/tmp/objs/7.so", (demoLoader.compile demoEnv "a.go" startWorld).2) ∧
    (∃ f, demoEnv.ReadFile startWorld (Join demoLoader.pluginsDir "a.go") = .ok f ∧
      fileAt (demoLoader.compile demoEnv "a.go" startWorld).2
        (Join demoLoader.objectsDir (Nat.repr (demoEnv.Int63 startWorld.draws % 2 ^ 63) ++ ".go")) =
          some f) ∧
    fileAt (demoLoader.compile demoEnv "a.go" startWorld).2 "/tmp/objs/7.go" = some [1, 2] :=
  ⟨rfl,
    (compile_success_paths demoEnv demoLoader "a.go" startWorld "/tmp/objs/7.so"
      (demoLoader.compile demoEnv "a.go" startWorld).2 rfl).1,
    rfl⟩

/-- C9, counterexample.  In a process whose initialization succeeds but whose plugin
directory cannot be opened, `main` exits on its own, in the first poll iteration,
with exit code 1.  And in a process whose initialization succeeds, a plugin whose
`Run` panics ends the process with code 2, one whose `Run` calls `os.Exit(3)`
with code 3. -/
theorem main_exits_after_init :
    newLoader unreadableDirEnv startWorld = .ok demoLoader ∧
    main unreadableDirEnv 1 startWorld =
      .exited 1 (startWorld.log (.logFatal "open /work/plugins: permission denied")) ∧
    newLoader (envOpening (pluginReturning (.panic "boom"))) startWorld = .ok demoLoader ∧
    (match main (envOpening (pluginReturning (.panic "boom"))) 1 startWorld with
      | .exited code _ => code = 2
      | .running _ => False) ∧
    (match main (envOpening (pluginReturning (.exit 3))) 1 startWorld with
      | .exited code _ => code = 3
      | .running _ => False) := by
  refine ⟨rfl, rfl, rfl, ?_, ?_⟩ <;> exact rfl

/-- C9, amended.  The process exits with code 2 whenever initialization fails
(`newLoader` cannot determine the working directory or cannot allocate the
scratch directory) and, provided no plugin code panics or ends the process, only
then.  When `newLoader` succeeds, the process exits on its own only through
`log.Fatal` in `plugins()` (exit code 1, when the plugin directory cannot be
opened or listed), through a panic of plugin code (exit code 2) or through
`os.Exit` called by plugin code; as long as every listing succeeds and plugin
code returns, the poll loop of `main` keeps running, for any number of
iterations. -/
theorem main_exit_codes (env : Env) (w : World) :
    ((∃ e, newLoader env w = .error e) → ∀ fuel, ∃ w1, main env fuel w = .exited 2 w1) ∧
    ((∃ e, newLoader env w = .error e) ↔
      (∃ e, env.Getwd w = .error e) ∨ (∃ e, env.TempDir w = .error e)) ∧
    (∀ l, newLoader env w = .ok l → ∀ fuel code w1, main env fuel w = .exited code w1 →
      (code = 1 ∧ ∃ v e, l.plugins env v = .error e ∧ w1 = v.log (.logFatal e)) ∨
      (code = 2 ∧ ∃ obj v msg, (l.call env obj v).1 = .panic msg) ∨
      (∃ obj v, (l.call env obj v).1 = .exit code)) ∧
    ((∀ (l : loader) v object,
        (l.call env object v).1 = .ok () ∨ ∃ e, (l.call env object v).1 = .err e) →
      (∀ fuel, (∃ w1, main env fuel w = .exited 2 w1) ↔ ∃ e, newLoader env w = .error e) ∧
      (∀ l, newLoader env w = .ok l → ∀ fuel,
        (∃ w1, main env fuel w = .running w1) ∨
          ∃ w1 e, main env fuel w = .exited 1 (w1.log (.logFatal e)) ∧
            l.plugins env w1 = .error e) ∧
      (∀ l, newLoader env w = .ok l → (∀ v, ∃ names, l.plugins env v = .ok names) →
        ∀ fuel, ∃ w1, main env fuel w = .running w1)) ∧
    (∀ (l : loader) (v : World) (e : String), l.plugins env v = .error e ↔
      env.Open v l.pluginsDir = some e ∨
        (env.Open v l.pluginsDir = none ∧ env.Readdirnames v l.pluginsDir = .error e)) := by
  have hmain : ∀ l, newLoader env w = .ok l → ∀ fuel, main env fuel w = pollLoop env l fuel w := by
    intro l hl fuel
    simp [main, hl]
  refine ⟨?_, ?_, ?_, ?_, ?_⟩
  · rintro ⟨e, he⟩ fuel
    exact ⟨w.log (.stderr e), by simp [main, he]⟩
  · unfold newLoader
    cases hg : env.Getwd w with
    | error e => simp
    | ok wd =>
      cases ht : env.TempDir w with
      | error e => simp
      | ok tmp => simp
  · intro l hl fuel code w1 h
    rw [hmain l hl fuel] at h
    exact pollLoop_exit_paths env l fuel w code w1 h
  · intro hret
    refine ⟨?_, ?_, ?_⟩
    · intro fuel
      cases hl : newLoader env w with
      | error e =>
        simp [main, hl]
      | ok l =>
        rw [hmain l hl fuel]
        simp only [reduceCtorEq, exists_false, iff_false, not_exists]
        intro w1 h
        rcases pollLoop_cases env l (hret l) fuel w with ⟨w2, h2⟩ | ⟨w2, e, h2, _⟩
        · rw [h2] at h; cases h
        · rw [h2] at h; cases h
    · intro l hl fuel
      rw [hmain l hl fuel]
      exact pollLoop_cases env l (hret l) fuel w
    · intro l hl hp fuel
      rw [hmain l hl fuel]
      exact pollLoop_running env l (hret l) hp fuel w
  · intro l v e
    unfold loader.plugins
    cases ho : env.Open v l.pluginsDir with
    | some e1 => simp
    | none =>
      cases hr : env.Readdirnames v l.pluginsDir with
      | error e1 => simp
      | ok names => simp

/-- C9, amended, instances: a process that cannot determine its working directory
exits with code 2; a process whose listings all succeed and whose plugins return
is still running after three poll iterations. -/
theorem main_exit_codes_witness :
    (∃ e, newLoader noWorkingDirEnv startWorld = .error e) ∧
    (∃ w1, main noWorkingDirEnv 3 startWorld = .exited 2 w1) ∧
    (∀ (l : loader) v object, (l.call demoEnv object v).1 = .ok () ∨
      ∃ e, (l.call demoEnv object v).1 = .err e) ∧
    newLoader demoEnv startWorld = .ok demoLoader ∧
    (∃ w1, main demoEnv 3 startWorld = .running w1) :=
  ⟨⟨_, rfl⟩,
    (main_exit_codes noWorkingDirEnv startWorld).1 ⟨_, rfl⟩ 3,
    fun _ _ _ => Or.inr ⟨"plugin failed with error boom", rfl⟩,
    rfl,
    ((main_exit_codes demoEnv startWorld).2.2.2.1
        (fun _ _ _ => Or.inr ⟨"plugin failed with error boom", rfl⟩)).2.2
      demoLoader rfl (fun _ => ⟨_, rfl⟩) 3⟩

/-- What `destroy` does when it runs: every tracked file in or below `pluginsDir` is
gone, every other file is unchanged. -/
theorem destroy_files (l : loader) (w : World) (path : String) :
    fileAt (l.destroy w) path = if isUnder l.pluginsDir path then none else fileAt w path := by
  simp only [loader.destroy, osRemoveAll, fileAt]
  induction w.files with
  | nil => simp
  | cons f fs ih =>
    by_cases hf : isUnder l.pluginsDir f.1 = true
    · have e1 : List.filter (fun f : String × Bytes => !isUnder l.pluginsDir f.1) (f :: fs) =
          List.filter (fun f : String × Bytes => !isUnder l.pluginsDir f.1) fs :=
        List.filter_cons_of_neg (by simp [hf])
      rw [e1, ih, List.find?_cons]
      by_cases hp : f.1 = path
      · subst hp
        simp [hf]
      · have : (f.1 == path) = false := by simpa using hp
        rw [this]
    · have e1 : List.filter (fun f : String × Bytes => !isUnder l.pluginsDir f.1) (f :: fs) =
          f :: List.filter (fun f : String × Bytes => !isUnder l.pluginsDir f.1) fs :=
        List.filter_cons_of_pos (by simpa using hf)
      rw [e1, List.find?_cons, List.find?_cons]
      by_cases hp : f.1 = path
      · subst hp
        simp [hf]
      · have : (f.1 == path) = false := by simpa using hp
        rw [this]
        exact ih

/-- The directory passed to `os.RemoveAll` need not be written in clean form. -/
theorem isUnder_unclean :
    isUnder "/work/plugins/" "/work/plugins/a.go" = true ∧
    isUnder "/work//plugins" "/work/plugins/a.go" = true ∧
    isUnder "/work/x/../plugins" "/work/plugins/a.go" = true ∧
    isUnder "/work/plugins" "/work/plugins2/a.go" = false ∧
    isUnder "/work/plugins" "/tmp/objs/7.go" = false ∧
    isUnder "" "/tmp/objs/7.go" = false := by
  decide

/-- C10, at the failing input.  The process has initialized and the plugin directory holds
`a.go`, but the directory cannot be opened: `plugins()` calls `log.Fatal`, the
process exits with code 1 through `os.Exit`, and the deferred `destroy` has not
run: no `os.RemoveAll` was issued and `a.go` is still there, while `destroy`
would have removed it. -/
theorem fatal_exit_skips_destroy :
    newLoader unreadableDirEnv startWorld = .ok demoLoader ∧
    main unreadableDirEnv 1 startWorld =
      .exited 1 (startWorld.log (.logFatal "open /work/plugins: permission denied")) ∧
    Event.removeAll "/work/plugins" ∉
      (startWorld.log (.logFatal "open /work/plugins: permission denied")).trace ∧
    fileAt (startWorld.log (.logFatal "open /work/plugins: permission denied"))
      "/work/plugins/a.go" = some [1, 2] ∧
    fileAt (demoLoader.destroy startWorld) "/work/plugins/a.go" = none := by
  refine ⟨rfl, rfl, by decide, rfl, rfl⟩


end GoPlugins
